/-
Verification of the classification/matching engine of the ProfileEnhancer
repository (`src/classifier.py`, class `SingaporeClassifier`) against its
natural-language specification.

The Python code is shallowly embedded: strings are Lean `String`s, Python
floats are modelled as exact rationals (`ℚ`), pandas dataframes of taxonomy
rows are lists of `TaxRow`, and the external OpenAI calls are modelled by an
oracle parameter whose calls return `Except String String` (the `.error` case
standing for any exception raised by the client library).  Python `try/except`
blocks become explicit case splits on those `Except` values.
-/
import Mathlib

set_option maxHeartbeats 1000000
set_option maxRecDepth 10000

/-! ### String helpers mirroring the Python primitives used by classifier.py -/

/-- Does `hay` start with `pre`?  Mirrors Python `str.startswith`. -/
def listStarts : List Char → List Char → Bool
  | [], _ => true
  | _ :: _, [] => false
  | a :: as, b :: bs => a == b && listStarts as bs

/-- Substring containment: Python `needle in hay` on strings. -/
def listInfixB : List Char → List Char → Bool
  | needle, [] => needle.isEmpty
  | needle, c :: rest => listStarts needle (c :: rest) || listInfixB needle rest

/-- Python `needle in hay` (substring test). -/
def substrOf (needle hay : String) : Bool := listInfixB needle.data hay.data

/-- Python `hay.startswith(pre)`. -/
def strStartsWith (pre hay : String) : Bool := listStarts pre.data hay.data

/-- Python `s.lower()` (ASCII case folding suffices for this code base). -/
def lowerStr (s : String) : String := ⟨s.data.map Char.toLower⟩

/-- Python `s[:n]` on strings (character prefix). -/
def strTake (s : String) (n : Nat) : String := ⟨s.data.take n⟩

/-- Worker for `pyWords`: split on whitespace runs, dropping empty pieces. -/
def splitWsAux : List Char → List Char → List String
  | [], cur => if cur.isEmpty then [] else [⟨cur.reverse⟩]
  | c :: rest, cur =>
    if c.isWhitespace then
      (if cur.isEmpty then splitWsAux rest [] else ⟨cur.reverse⟩ :: splitWsAux rest [])
    else splitWsAux rest (c :: cur)

/-- Python `s.split()`: whitespace-separated words, no empty strings. -/
def pyWords (s : String) : List String := splitWsAux s.data []

/-- Python `set(s.lower().split())`, as a duplicate-free list.  Only the
membership and cardinality of the result matter, never its order. -/
def wordSet (s : String) : List String := (pyWords (lowerStr s)).dedup

/-- Python `round(x, 1)` (modelled with round-half-up on exact rationals;
the original rounds IEEE doubles). -/
def pyRound1 (x : ℚ) : ℚ := ((round (x * 10) : ℤ) : ℚ) / 10

/-! ### Lexical Similarity Toolkit (`_calculate_semantic_similarity`,
`enhanced_text_matching` in classifier.py) -/

/-- The merged `tech_synonyms`/`business_synonyms` tables of
`_calculate_semantic_similarity` (dict insertion order; keys are distinct so
the `{**a, **b}` merge is a plain concatenation). -/
def all_synonyms : List (String × List String) :=
  [("software", ["application", "program", "system", "platform", "solution"]),
   ("development", ["programming", "coding", "engineering", "building"]),
   ("data", ["information", "analytics", "intelligence", "statistics"]),
   ("digital", ["electronic", "online", "technology", "cyber"]),
   ("web", ["internet", "online", "website", "portal"]),
   ("mobile", ["smartphone", "app", "cellular", "wireless"]),
   ("cloud", ["distributed", "remote", "virtual", "hosted"]),
   ("ai", ["artificial intelligence", "machine learning", "automation"]),
   ("management", ["administration", "supervision", "leadership", "oversight"]),
   ("consulting", ["advisory", "guidance", "expertise", "professional services"]),
   ("sales", ["marketing", "business development", "revenue", "commercial"]),
   ("finance", ["financial", "banking", "investment", "monetary"]),
   ("operations", ["production", "manufacturing", "processing", "workflow"])]

/-- Contribution of one synonym-table entry to one word pair: the
`if/elif/elif` chain in the inner loop of `_calculate_semantic_similarity`. -/
def synKeyContrib (w1 w2 : String) (e : String × List String) : ℚ :=
  if e.2.contains w1 && e.2.contains w2 then 2/25
  else if w1 == e.1 && e.2.contains w2 then 2/25
  else if w2 == e.1 && e.2.contains w1 then 2/25
  else 0

/-- Score of one word pair in `_calculate_semantic_similarity`: `0.1` for an
identical match, else `0.08` per synonym-table entry relating the words. -/
def semPairScore (w1 w2 : String) : ℚ :=
  if w1 == w2 then 1/10
  else all_synonyms.foldl (fun a e => a + synKeyContrib w1 w2 e) 0

/-- `_calculate_semantic_similarity`: sum of pair scores over the two word
sets, clamped to `1.0`. -/
def calculate_semantic_similarity (text1 text2 : String) : ℚ :=
  min ((wordSet text1).foldl
        (fun a w1 => a + (wordSet text2).foldl (fun b w2 => b + semPairScore w1 w2) 0) 0) 1

/-- `enhanced_text_matching`: weighted sum of exact-word overlap (0.5),
partial/substring overlap (0.3) and semantic similarity (0.2), clamped to 1;
`0` when either word set is empty.  Note the partial-match condition only
constrains the length of the *search* word. -/
def enhanced_text_matching (searchText targetText : String) : ℚ :=
  let sw := wordSet searchText
  let tw := wordSet targetText
  if sw.isEmpty || tw.isEmpty then 0
  else
    let exactScore : ℚ := ((sw.filter (fun w => tw.contains w)).length : ℚ) / sw.length
    let partCount : ℕ :=
      (sw.filter (fun s =>
        decide (4 ≤ s.length) && tw.any (fun t => substrOf s t || substrOf t s))).length
    let partScore : ℚ := (partCount : ℚ) / sw.length
    let semanticScore : ℚ := calculate_semantic_similarity searchText targetText
    min (exactScore * (1/2) + partScore * (3/10) + semanticScore * (1/5)) 1

/-- What C8 claims `enhanced_text_matching` computes (spec wording): the
partial-overlap component would also require the matching *target* word to
have length at least 4.  Kept only to compare with the source function. -/
def enhanced_text_matching_claim (searchText targetText : String) : ℚ :=
  let sw := wordSet searchText
  let tw := wordSet targetText
  if sw.isEmpty || tw.isEmpty then 0
  else
    let exactScore : ℚ := ((sw.filter (fun w => tw.contains w)).length : ℚ) / sw.length
    let partCount : ℕ :=
      (sw.filter (fun s =>
        decide (4 ≤ s.length) &&
          tw.any (fun t => decide (4 ≤ t.length) && (substrOf s t || substrOf t s)))).length
    let partScore : ℚ := (partCount : ℚ) / sw.length
    let semanticScore : ℚ := calculate_semantic_similarity searchText targetText
    min (exactScore * (1/2) + partScore * (3/10) + semanticScore * (1/5)) 1

/-! ### Keyword Extractors (`_extract_industry_keywords`,
`_extract_job_keywords`) -/

/-- The `industry_keywords` vocabulary, transcribed verbatim from
`_extract_industry_keywords` — including the duplicated entries
(`fintech`, `development`, `supply chain`, `research`) and the original
(non length-sorted) order. -/
def industry_keywords : List String :=
  ["technology", "tech", "software", "it", "information technology", "digital", "cyber",
   "cybersecurity",
   "programming", "development", "web", "mobile", "cloud", "ai", "artificial intelligence",
   "machine learning",
   "data", "analytics", "blockchain", "fintech", "saas", "platform", "api", "database",
   "manufacturing", "production", "factory", "assembly", "industrial", "automotive",
   "electronics",
   "machinery", "equipment", "processing", "packaging", "quality control", "supply chain",
   "finance", "financial", "banking", "insurance", "investment", "wealth management",
   "accounting",
   "audit", "compliance", "risk", "trading", "fund", "capital", "securities", "fintech",
   "healthcare", "medical", "hospital", "clinic", "pharmaceutical", "biotech", "nursing",
   "therapy", "treatment", "patient", "clinical", "diagnostic", "surgery", "medicine",
   "education", "school", "university", "training", "teaching", "learning", "academic",
   "curriculum", "instruction", "research", "student", "faculty", "tuition",
   "retail", "sales", "shop", "store", "commerce", "ecommerce", "shopping", "customer",
   "merchandise", "inventory", "outlet", "chain", "franchise", "marketplace",
   "construction", "building", "engineering", "architecture", "real estate", "property",
   "development", "infrastructure", "civil", "structural", "contractor",
   "logistics", "transport", "shipping", "delivery", "freight", "warehouse", "distribution",
   "supply chain", "courier", "trucking", "maritime", "aviation", "rail",
   "hospitality", "hotel", "restaurant", "food", "tourism", "catering", "beverage",
   "accommodation", "travel", "resort", "dining", "culinary",
   "telecommunications", "telecom", "communications", "media", "broadcasting", "publishing",
   "advertising", "marketing", "public relations", "journalism", "content",
   "agriculture", "farming", "agricultural", "government", "public", "civil service",
   "consulting", "advisory", "professional services", "legal", "law",
   "energy", "utilities", "power", "oil", "gas", "renewable", "sustainability",
   "research", "laboratory", "scientific", "innovation"]

/-- `_extract_industry_keywords`: scans the vocabulary in its original order
(no length sort, no deduplication) and keeps every entry contained in the
lower-cased text. -/
def extract_industry_keywords (text : String) : List String :=
  industry_keywords.filter (fun k => substrOf k (lowerStr text))

/-- The `job_keywords` vocabulary of `_extract_job_keywords`, transcribed
verbatim (some entries appear twice, e.g. `operations manager`,
`graphic designer`, `technical writer`, `compliance officer`). -/
def job_keywords : List String :=
  ["software engineer", "software developer", "web developer", "mobile developer",
   "full stack developer",
   "frontend developer", "backend developer", "devops engineer", "cloud engineer",
   "system engineer",
   "data scientist", "data analyst", "data engineer", "machine learning engineer",
   "ai engineer",
   "product manager", "technical product manager", "scrum master", "agile coach",
   "ui designer", "ux designer", "product designer", "graphic designer", "web designer",
   "system administrator", "database administrator", "network administrator",
   "security engineer",
   "cybersecurity analyst", "information security", "technical writer", "qa engineer",
   "test engineer",
   "chief executive officer", "ceo", "managing director", "general manager",
   "country manager",
   "vice president", "vp", "director", "senior director", "associate director",
   "department head", "team lead", "team leader", "project manager", "program manager",
   "operations manager", "business manager", "relationship manager", "account manager",
   "financial analyst", "investment analyst", "credit analyst", "risk analyst",
   "business analyst",
   "financial advisor", "wealth manager", "portfolio manager", "fund manager",
   "accountant", "senior accountant", "accounting manager", "finance manager", "cfo",
   "auditor", "internal auditor", "external auditor", "compliance officer", "risk manager",
   "treasury analyst", "budget analyst", "cost analyst", "tax specialist",
   "sales manager", "sales director", "sales representative", "account executive",
   "business development manager", "business development", "partnership manager",
   "marketing manager", "digital marketing manager", "brand manager", "product marketing",
   "marketing director", "communications manager", "public relations", "content manager",
   "social media manager", "seo specialist", "digital marketing specialist",
   "hr manager", "human resources manager", "hr director", "hr business partner",
   "recruiter", "senior recruiter", "talent acquisition", "recruitment consultant",
   "hr generalist", "hr specialist", "compensation analyst", "benefits administrator",
   "learning and development", "training manager", "organizational development",
   "operations manager", "operations director", "supply chain manager", "logistics manager",
   "warehouse manager", "production manager", "manufacturing manager", "plant manager",
   "quality manager", "quality assurance", "quality control", "process engineer",
   "industrial engineer", "manufacturing engineer", "production supervisor",
   "consultant", "senior consultant", "principal consultant", "management consultant",
   "strategy consultant", "business consultant", "it consultant", "financial consultant",
   "advisory", "advisor", "senior advisor", "subject matter expert", "specialist",
   "doctor", "physician", "medical doctor", "surgeon", "specialist doctor",
   "nurse", "registered nurse", "senior nurse", "nurse manager", "nursing supervisor",
   "pharmacist", "clinical pharmacist", "hospital pharmacist", "medical technician",
   "radiologist", "pathologist", "anesthesiologist", "cardiologist", "neurologist",
   "physical therapist", "occupational therapist", "medical assistant",
   "teacher", "senior teacher", "principal", "vice principal", "head of department",
   "professor", "associate professor", "assistant professor", "lecturer", "instructor",
   "trainer", "corporate trainer", "training specialist", "curriculum developer",
   "education consultant", "academic advisor", "student counselor", "librarian",
   "lawyer", "senior lawyer", "legal counsel", "general counsel", "legal advisor",
   "paralegal", "legal assistant", "compliance officer", "regulatory affairs",
   "contract manager", "legal manager", "litigation lawyer", "corporate lawyer",
   "executive assistant", "administrative assistant", "personal assistant", "secretary",
   "office manager", "administrative coordinator", "data entry", "clerk",
   "receptionist", "customer service representative", "call center agent",
   "help desk", "technical support", "customer support specialist",
   "creative director", "art director", "graphic designer", "visual designer",
   "multimedia designer", "video editor", "photographer", "videographer",
   "copywriter", "content writer", "technical writer", "editor", "proofreader",
   "animator", "illustrator", "game designer", "3d artist",
   "mechanical engineer", "electrical engineer", "civil engineer", "chemical engineer",
   "biomedical engineer", "aerospace engineer", "environmental engineer",
   "structural engineer", "design engineer", "project engineer", "site engineer",
   "technician", "senior technician", "engineering technician", "lab technician",
   "maintenance technician", "field technician", "service technician"]

/-- Insert `k` into a length-descending sorted list, before the first entry
that is not longer than `k` — the insertion step of a stable sort. -/
def insertByLen (k : String) : List String → List String
  | [] => [k]
  | x :: xs => if x.length ≤ k.length then k :: x :: xs else x :: insertByLen k xs

/-- Stable insertion sort, longest strings first.  A stable sort is unique,
so this computes exactly Python's `sorted(keywords, key=len, reverse=True)`. -/
def sortByLenDesc : List String → List String
  | [] => []
  | x :: xs => insertByLen x (sortByLenDesc xs)

/-- Python `sorted(job_keywords, key=len, reverse=True)`: stable sort, longest
entries first. -/
def sortedJobKeywords : List String := sortByLenDesc job_keywords

/-- `_extract_job_keywords`: scans the length-sorted vocabulary and keeps each
entry contained in the lower-cased text at most once. -/
def extract_job_keywords (text : String) : List String :=
  let tl := lowerStr text
  sortedJobKeywords.foldl
    (fun acc k => if substrOf k tl && !(acc.contains k) then acc ++ [k] else acc) []

/-- `_calculate_enhanced_keyword_score`: exact substring matches weigh 1.0,
root matches (first `max(4, len-2)` characters, when that root has at least 4
characters) weigh 0.7; normalised by the number of keywords, clamped to 1;
`0` for an empty keyword list. -/
def calculate_enhanced_keyword_score (keywords : List String) (targetText : String) : ℚ :=
  if keywords.isEmpty then 0
  else
    let targetLower := lowerStr targetText
    let exactMatches : ℕ := (keywords.filter (fun k => substrOf k targetLower)).length
    let partMatches : ℕ :=
      (keywords.filter (fun k =>
        !substrOf k targetLower &&
          (let root := strTake k (max 4 (k.length - 2))
           decide (4 ≤ root.length) && substrOf root targetLower))).length
    min (((exactMatches : ℚ) * 1 + (partMatches : ℚ) * (7/10)) / keywords.length) 1

/-! ### Candidate Scorer components (`_calculate_company_industry_score`,
`_calculate_enhanced_job_match`) -/

/-- The `industry_patterns` table of `_calculate_company_industry_score`. -/
def industry_patterns : List (String × List String) :=
  [("technology", ["tech", "software", "systems", "solutions", "digital", "cyber", "data",
    "ai", "cloud"]),
   ("consulting", ["consulting", "advisory", "professional services", "management"]),
   ("financial", ["bank", "finance", "capital", "investment", "wealth", "insurance"]),
   ("healthcare", ["health", "medical", "clinic", "hospital", "pharma", "bio"]),
   ("education", ["education", "school", "university", "institute", "academy"]),
   ("manufacturing", ["manufacturing", "production", "industrial", "factory", "engineering"]),
   ("retail", ["retail", "store", "shop", "mart", "supermarket", "mall"]),
   ("logistics", ["logistics", "transport", "shipping", "delivery", "supply", "warehouse"]),
   ("construction", ["construction", "building", "property", "real estate", "development"]),
   ("government", ["government", "ministry", "authority", "agency", "public", "statutory"])]

/-- Contribution of one `industry_patterns` entry in
`_calculate_company_industry_score`: 0.8 when the company name matches a
pattern and the candidate title names the industry, 0.5 when only a pattern
overlaps the title. -/
def companyPatternContrib (companyName ssicTitle : String) (e : String × List String) : ℚ :=
  if e.2.any (fun p => substrOf p companyName) then
    (if substrOf e.1 ssicTitle then 4/5
     else if e.2.any (fun p => substrOf p ssicTitle) then 1/2
     else 0)
  else 0

/-- `_calculate_company_industry_score`: summed pattern contributions, clamped
to 1.  Both arguments are expected pre-lowered, exactly as the call sites do. -/
def calculate_company_industry_score (companyName ssicTitle : String) : ℚ :=
  min (industry_patterns.foldl (fun a e => a + companyPatternContrib companyName ssicTitle e) 0) 1

/-- The `job_synonyms` table of `_calculate_enhanced_job_match`. -/
def job_synonyms : List (String × List String) :=
  [("software engineer", ["software developer", "programmer", "application developer",
    "systems developer"]),
   ("software developer", ["software engineer", "programmer", "application developer",
    "web developer"]),
   ("data scientist", ["data analyst", "data engineer", "business analyst",
    "research scientist"]),
   ("data analyst", ["business analyst", "data scientist", "research analyst",
    "intelligence analyst"]),
   ("manager", ["supervisor", "head", "director", "lead", "team lead", "senior manager"]),
   ("senior manager", ["director", "head", "manager", "supervisor", "team lead"]),
   ("analyst", ["specialist", "consultant", "associate", "researcher"]),
   ("specialist", ["expert", "consultant", "analyst", "advisor"]),
   ("executive", ["officer", "coordinator", "administrator", "manager"]),
   ("assistant", ["associate", "support", "coordinator", "helper"]),
   ("designer", ["creative", "artist", "stylist", "developer"]),
   ("accountant", ["financial analyst", "bookkeeper", "finance officer", "auditor"]),
   ("teacher", ["educator", "instructor", "trainer", "lecturer", "professor"]),
   ("engineer", ["technician", "specialist", "developer", "architect"]),
   ("developer", ["engineer", "programmer", "builder", "creator"]),
   ("consultant", ["advisor", "specialist", "expert", "counselor"]),
   ("coordinator", ["organizer", "administrator", "manager", "supervisor"]),
   ("technician", ["specialist", "engineer", "mechanic", "operator"])]

/-- Python `job_synonyms.get(w, [])`. -/
def synLookup (w : String) : List String :=
  match job_synonyms.find? (fun e => e.1 == w) with
  | some e => e.2
  | none => []

/-- Contribution of one word pair to the synonym boost of
`_calculate_enhanced_job_match`: 0.4 for a direct synonym-table match, 0.2 for
a substring overlap between two words of length at least 4. -/
def jobPairContrib (jobWord ssoWord : String) : ℚ :=
  if (synLookup ssoWord).contains jobWord || (synLookup jobWord).contains ssoWord then 2/5
  else if decide (4 ≤ jobWord.length) && decide (4 ≤ ssoWord.length) &&
      (substrOf jobWord ssoWord || substrOf ssoWord jobWord) then 1/5
  else 0

/-- The seniority markers of `_calculate_enhanced_job_match` — note that the
source includes `junior`. -/
def seniority_levels : List String :=
  ["junior", "senior", "lead", "principal", "chief", "head"]

/-- Does the title contain any seniority marker (substring containment in the
lower-cased title)? -/
def hasSeniorityMarker (title : String) : Bool :=
  seniority_levels.any (fun l => substrOf l (lowerStr title))

/-- Number of distinct words shared by the two titles. -/
def wordOverlapCount (jobTitle ssoTitle : String) : ℕ :=
  ((wordSet jobTitle).filter (fun w => (wordSet ssoTitle).contains w)).length

/-- Number of distinct words in the union of the two titles. -/
def wordUnionCount (jobTitle ssoTitle : String) : ℕ :=
  ((wordSet jobTitle) ++ (wordSet ssoTitle)).dedup.length

/-- The synonym boost summed over all word pairs. -/
def jobSynonymBoost (jobTitle ssoTitle : String) : ℚ :=
  (wordSet jobTitle).foldl
    (fun a j => a + (wordSet ssoTitle).foldl (fun b s => b + jobPairContrib j s) 0) 0

/-- `_calculate_enhanced_job_match`: word-overlap base + synonym boost +
0.1 seniority-agreement bonus, clamped to 1; `0` when both titles have no
words. -/
def calculate_enhanced_job_match (jobTitle ssoTitle : String) : ℚ :=
  if wordUnionCount jobTitle ssoTitle = 0 then 0
  else
    min (((wordOverlapCount jobTitle ssoTitle : ℚ) / (wordUnionCount jobTitle ssoTitle : ℚ)) +
      jobSynonymBoost jobTitle ssoTitle +
      (if hasSeniorityMarker jobTitle = hasSeniorityMarker ssoTitle then 1/10 else 0)) 1

/-- What C9 claims: seniority markers would be exactly `senior`, `lead`,
`principal`, `chief`, `head` (without `junior`).  Kept only to compare with
the source function. -/
def hasSeniorityMarker_claim (title : String) : Bool :=
  ["senior", "lead", "principal", "chief", "head"].any (fun l => substrOf l (lowerStr title))

/-- `calculate_enhanced_job_match` as claim C9 describes it (five markers). -/
def calculate_enhanced_job_match_claim (jobTitle ssoTitle : String) : ℚ :=
  if wordUnionCount jobTitle ssoTitle = 0 then 0
  else
    min (((wordOverlapCount jobTitle ssoTitle : ℚ) / (wordUnionCount jobTitle ssoTitle : ℚ)) +
      jobSynonymBoost jobTitle ssoTitle +
      (if hasSeniorityMarker_claim jobTitle = hasSeniorityMarker_claim ssoTitle then 1/10
       else 0)) 1

/-! ### Data model and the Two-Tier Matchers (`find_best_ssic_match`,
`find_best_sso_match`, `_find_best_5digit_ssic_match`) -/

/-- One row of a taxonomy table (`SSIC_Code`/`SSIC_Title` resp.
`SSO_Code`/`SSO_Title`), code kept as a digit string. -/
structure TaxRow where
  code : String
  title : String
deriving DecidableEq, Repr

/-- A scored candidate: the running `(best_code, best_title, best_score)`
triple of the scan loops. -/
structure Cand where
  code : String
  title : String
  score : ℚ
deriving DecidableEq, Repr

/-- The scan loop shared by all matchers: fold over the rows, replacing the
running best exactly when a row scores strictly higher
(`if combined_score > best_score`). -/
def scanBest (f : TaxRow → ℚ) (init : Cand) (rows : List TaxRow) : Cand :=
  rows.foldl (fun b r => if b.score < f r then ⟨r.code, r.title, f r⟩ else b) init

/-- The final confidence boost (`if best_score > 0.5: min(best_score * m, 1.0)`). -/
def applyBoost (m : ℚ) (c : Cand) : Cand :=
  if 1/2 < c.score then { c with score := min (c.score * m) 1 } else c

/-- Score of one 5-digit SSIC row in `find_best_ssic_match`. -/
def ssicRowScore5 (company jobDescription : String) (r : TaxRow) : ℚ :=
  let searchText := lowerStr (company ++ " " ++ jobDescription)
  let ssicTitle := lowerStr r.title
  let textScore := enhanced_text_matching searchText ssicTitle
  let keywords := extract_industry_keywords searchText
  let keywordScore := calculate_enhanced_keyword_score keywords ssicTitle
  let companyScore := calculate_company_industry_score (lowerStr company) ssicTitle
  let confidenceBoost : ℚ := if 7/10 < textScore ∨ 4/5 < keywordScore then 1/5 else 0
  min (textScore * (2/5) + keywordScore * (2/5) + companyScore * (1/5) + confidenceBoost) 1

/-- Score of one 4-digit SSIC row in `find_best_ssic_match` (same formula,
lower boost thresholds and a 0.15 boost). -/
def ssicRowScore4 (company jobDescription : String) (r : TaxRow) : ℚ :=
  let searchText := lowerStr (company ++ " " ++ jobDescription)
  let ssicTitle := lowerStr r.title
  let textScore := enhanced_text_matching searchText ssicTitle
  let keywords := extract_industry_keywords searchText
  let keywordScore := calculate_enhanced_keyword_score keywords ssicTitle
  let companyScore := calculate_company_industry_score (lowerStr company) ssicTitle
  let confidenceBoost : ℚ := if 3/5 < textScore ∨ 7/10 < keywordScore then 3/20 else 0
  min (textScore * (2/5) + keywordScore * (2/5) + companyScore * (1/5) + confidenceBoost) 1

/-- `find_best_ssic_match`: scan 5-digit rows, fall back to 4-digit rows when
the best 5-digit score is below 0.4, then apply the ×1.2 boost. -/
def find_best_ssic_match (ssicTbl : List TaxRow) (company jobDescription : String) : Cand :=
  let b5 := scanBest (ssicRowScore5 company jobDescription) ⟨"", "", 0⟩
    (ssicTbl.filter (fun r => r.code.length == 5))
  let b :=
    if b5.score < 2/5 then
      scanBest (ssicRowScore4 company jobDescription) b5
        (ssicTbl.filter (fun r => r.code.length == 4))
    else b5
  applyBoost (6/5) b

/-- Score of one 5-digit SSO row in `find_best_sso_match`. -/
def ssoRowScore5 (company jobTitle jobDescription : String) (r : TaxRow) : ℚ :=
  let searchText := lowerStr (company ++ " " ++ jobTitle ++ " " ++ jobDescription)
  let ssoTitle := lowerStr r.title
  let titleScore := enhanced_text_matching (lowerStr jobTitle) ssoTitle
  let descScore := enhanced_text_matching (lowerStr jobDescription) ssoTitle
  let jobKeywords := extract_job_keywords searchText
  let keywordScore := calculate_enhanced_keyword_score jobKeywords ssoTitle
  let exactMatchScore := calculate_enhanced_job_match (lowerStr jobTitle) ssoTitle
  let confidenceBoost : ℚ :=
    if 7/10 < titleScore ∨ 4/5 < exactMatchScore then 1/4
    else if 7/10 < keywordScore then 3/20
    else 0
  min (titleScore * (7/20) + descScore * (3/20) + keywordScore * (1/4) +
    exactMatchScore * (1/4) + confidenceBoost) 1

/-- Score of one 4-digit SSO row in `find_best_sso_match`. -/
def ssoRowScore4 (company jobTitle jobDescription : String) (r : TaxRow) : ℚ :=
  let searchText := lowerStr (company ++ " " ++ jobTitle ++ " " ++ jobDescription)
  let ssoTitle := lowerStr r.title
  let titleScore := enhanced_text_matching (lowerStr jobTitle) ssoTitle
  let descScore := enhanced_text_matching (lowerStr jobDescription) ssoTitle
  let jobKeywords := extract_job_keywords searchText
  let keywordScore := calculate_enhanced_keyword_score jobKeywords ssoTitle
  let exactMatchScore := calculate_enhanced_job_match (lowerStr jobTitle) ssoTitle
  let confidenceBoost : ℚ :=
    if 3/5 < titleScore ∨ 7/10 < exactMatchScore then 1/5
    else if 3/5 < keywordScore then 1/10
    else 0
  min (titleScore * (7/20) + descScore * (3/20) + keywordScore * (1/4) +
    exactMatchScore * (1/4) + confidenceBoost) 1

/-- `find_best_sso_match`: scan 5-digit rows, fall back to 4-digit rows when
the best 5-digit score is below 0.4, then apply the ×1.25 boost.  When no row
ever scores above zero the initial `("", "", 0.0)` triple is returned. -/
def find_best_sso_match (ssocTbl : List TaxRow) (company jobTitle jobDescription : String) :
    Cand :=
  let b5 := scanBest (ssoRowScore5 company jobTitle jobDescription) ⟨"", "", 0⟩
    (ssocTbl.filter (fun r => r.code.length == 5))
  let b :=
    if b5.score < 2/5 then
      scanBest (ssoRowScore4 company jobTitle jobDescription) b5
        (ssocTbl.filter (fun r => r.code.length == 4))
    else b5
  applyBoost (5/4) b

/-! ### Cross-Taxonomy Compatibility Heuristic
(`_calculate_ssic_sso_compatibility`) -/

/-- The `compatibility_patterns` table: key → (compatible SSO 3-digit
prefixes, score). -/
def compatibility_patterns : List (String × List String × ℚ) :=
  [("62", (["251", "252", "121", "132", "242"], 4/5)),
   ("64", (["241", "121", "122", "131"], 4/5)),
   ("66", (["241", "121", "122", "131"], 4/5)),
   ("841", (["111", "112", "121", "242", "251"], 9/10)),
   ("861", (["221", "222", "321", "322"], 9/10)),
   ("1", (["214", "215", "311", "312", "121"], 7/10)),
   ("2", (["214", "215", "311", "312", "121"], 7/10)),
   ("3", (["214", "215", "311", "312", "121"], 7/10)),
   ("70", (["242", "121", "122"], 4/5)),
   ("47", (["333", "334", "121", "132"], 7/10))]

/-- The code after the table lookup in `_calculate_ssic_sso_compatibility`:
the government special case, then the senior-management default. -/
def compatTail (ssicCode ssoCode : String) : ℚ :=
  if strStartsWith "841" ssicCode &&
      (strStartsWith "11" ssoCode || strStartsWith "24" ssoCode ||
        strStartsWith "25" ssoCode) then 9/10
  else if strStartsWith "11" ssoCode || strStartsWith "12" ssoCode then 1/2
  else 0

/-- `_calculate_ssic_sso_compatibility`: look the SSIC code's first two
characters up in the table; on a hit, return the entry's score when the SSO
code's 3-character prefix starts with a compatible prefix, otherwise fall
through to `compatTail`.  Empty codes score 0. -/
def calculate_ssic_sso_compatibility (ssicCode ssoCode : String) : ℚ :=
  if ssicCode = "" ∨ ssoCode = "" then 0
  else
    match compatibility_patterns.find? (fun e => e.1 == strTake ssicCode 2) with
    | some e =>
      if e.2.1.any (fun p => strStartsWith p (strTake ssoCode 3)) then e.2.2
      else compatTail ssicCode ssoCode
    | none => compatTail ssicCode ssoCode

/-! ### `_find_best_5digit_ssic_match` (the SSIC matcher used by
`classify_job`) -/

/-- Score of one 5-digit SSIC row in `_find_best_5digit_ssic_match`.  Note the
company-pattern score is computed on the whole search text here, and the
compatibility bonus only applies for a non-empty SSO code
(Python `if sso_code:`). -/
def ssicAnalysisRowScore (company companyDescription ssoCode : String) (r : TaxRow) : ℚ :=
  let searchText := lowerStr (company ++ " " ++ companyDescription)
  let ssicTitle := lowerStr r.title
  let textScore := enhanced_text_matching searchText ssicTitle
  let keywords := extract_industry_keywords searchText
  let keywordScore := calculate_enhanced_keyword_score keywords ssicTitle
  let companyScore := calculate_company_industry_score searchText ssicTitle
  let compatibilityBoost : ℚ :=
    if ssoCode ≠ "" then calculate_ssic_sso_compatibility r.code ssoCode else 0
  let confidenceBoost : ℚ := if 7/10 < textScore ∨ 4/5 < keywordScore then 1/5 else 0
  min (textScore * (3/10) + keywordScore * (3/10) + companyScore * (1/5) +
    compatibilityBoost * (1/5) + confidenceBoost) 1

/-- The sentinel returned when no 5-digit SSIC row scored above zero. -/
def ssicSentinel : Cand := ⟨"99999", "Other activities not elsewhere specified", 1/5⟩

/-- `_find_best_5digit_ssic_match`: scan 5-digit rows only, apply the ×1.2
boost, and fall back to the `99999` sentinel with score 0.2 when no code was
selected. -/
def find_best_5digit_ssic_match (ssicTbl : List TaxRow)
    (company companyDescription ssoCode : String) : Cand :=
  let b := scanBest (ssicAnalysisRowScore company companyDescription ssoCode) ⟨"", "", 0⟩
    (ssicTbl.filter (fun r => r.code.length == 5))
  let b := applyBoost (6/5) b
  if b.code = "" then ssicSentinel else b

/-! ### AI-assisted classifier and orchestrator (`generate_company_description`,
`_ai_enhanced_sso_classification`, `_ai_enhanced_ssic_classification`,
`classify_job`) -/

/-- The external LLM, abstracted: each call site either yields the (stripped)
completion text or raises — the prompt building feeds only this external
call, so it does not appear in the model. -/
structure AIOracle where
  companyDescResp : Except String String
  ssoResp : Except String String
  ssicResp : Except String String

/-- `generate_company_description`: the completion text on success, and on any
exception the fixed fallback sentence built from the company name (the
function never raises). -/
def generate_company_description (company : String) (o : AIOracle) : String :=
  match o.companyDescResp with
  | .ok s => s
  | .error _ =>
    company ++ " is a company operating in the business sector related to its core activities and services."

/-- Python `''.join(filter(str.isdigit, s))[:5]`. -/
def digitsTake5 (s : String) : String := ⟨(s.data.filter Char.isDigit).take 5⟩

/-- `_ai_enhanced_sso_classification`: on a successful call, keep the first
five digits of the answer and look them up in the SSO table (note: *without*
checking that five digits were actually present); return that row with
confidence 0.90, otherwise fall back to `find_best_sso_match`.  Any exception
also falls back. -/
def ai_enhanced_sso_classification (ssocTbl : List TaxRow)
    (company jobTitle jobDescription : String) (o : AIOracle) : Cand :=
  match o.ssoResp with
  | .error _ => find_best_sso_match ssocTbl company jobTitle jobDescription
  | .ok resp =>
    let clean := digitsTake5 resp
    match ssocTbl.find? (fun r => r.code == clean) with
    | some row => ⟨clean, row.title, 9/10⟩
    | none => find_best_sso_match ssocTbl company jobTitle jobDescription

/-- `_ai_enhanced_ssic_classification`: same shape, but the answer must clean
to exactly five digits, and the fallback is
`_find_best_5digit_ssic_match(company, company_description, sso_code)`. -/
def ai_enhanced_ssic_classification (ssicTbl : List TaxRow)
    (company companyDescription ssoCode : String) (o : AIOracle) : Cand :=
  match o.ssicResp with
  | .error _ => find_best_5digit_ssic_match ssicTbl company companyDescription ssoCode
  | .ok resp =>
    let clean := digitsTake5 resp
    if clean.length = 5 then
      match ssicTbl.find? (fun r => r.code == clean) with
      | some row => ⟨clean, row.title, 9/10⟩
      | none => find_best_5digit_ssic_match ssicTbl company companyDescription ssoCode
    else find_best_5digit_ssic_match ssicTbl company companyDescription ssoCode

/-- One half of the output record: code, title and confidence percentage. -/
structure CodeRec where
  code : String
  title : String
  confidence : ℚ
deriving DecidableEq, Repr

/-- The result dictionary of `classify_job`. -/
structure ClassifyResult where
  ssic : CodeRec
  sso : CodeRec
  company_description : Option String
deriving DecidableEq, Repr

/-- The `Unknown`/0-confidence sentinel of `classify_job`'s except-branch. -/
def unknownResult : ClassifyResult :=
  ⟨⟨"Unknown", "Classification failed", 0⟩, ⟨"Unknown", "Classification failed", 0⟩, none⟩

/-- The body of `classify_job`'s `try` block: generate the company analysis
(AI only), classify the occupation first, then the industry conditioned on the
occupation code, and assemble the record.  `ai = none` models
`api_key = None`. -/
def classifyBody (ssicTbl ssocTbl : List TaxRow) (ai : Option AIOracle)
    (company jobTitle jobDescription : String) : Except String ClassifyResult :=
  let companyDescription : String :=
    match ai with
    | none => ""
    | some o => generate_company_description company o
  let sso : Cand :=
    match ai with
    | none => find_best_sso_match ssocTbl company jobTitle jobDescription
    | some o => ai_enhanced_sso_classification ssocTbl company jobTitle jobDescription o
  let ssic : Cand :=
    match ai with
    | some o =>
      if companyDescription ≠ "" then
        ai_enhanced_ssic_classification ssicTbl company companyDescription sso.code o
      else
        find_best_5digit_ssic_match ssicTbl company
          ("Business operations related to " ++ company) sso.code
    | none =>
      find_best_5digit_ssic_match ssicTbl company
        ("Business operations related to " ++ company) sso.code
  Except.ok
    { ssic := ⟨ssic.code, ssic.title, pyRound1 (ssic.score * 100)⟩
      sso := ⟨sso.code, sso.title, pyRound1 (sso.score * 100)⟩
      company_description := if companyDescription ≠ "" then some companyDescription else none }

/-- The `try/except` boundary of `classify_job`: any exception escaping the
body becomes the `Unknown`/0 sentinel record. -/
def classifyCatch : Except String ClassifyResult → ClassifyResult
  | .ok r => r
  | .error _ => unknownResult

/-- `classify_job`, the public classification entry point. -/
def classify_job (ssicTbl ssocTbl : List TaxRow) (ai : Option AIOracle)
    (company jobTitle jobDescription : String) : ClassifyResult :=
  classifyCatch (classifyBody ssicTbl ssocTbl ai company jobTitle jobDescription)

/-! ### Generic lemmas about the scan loop and the numeric components -/

lemma foldl_add_nonneg {α : Type} (g : α → ℚ) (l : List α) (init : ℚ)
    (h0 : 0 ≤ init) (hg : ∀ x ∈ l, 0 ≤ g x) :
    0 ≤ l.foldl (fun a x => a + g x) init := by
  induction l generalizing init with
  | nil => simpa using h0
  | cons x xs ih =>
    simp only [List.foldl_cons]
    exact ih _ (add_nonneg h0 (hg x (List.mem_cons_self x xs)))
      (fun y hy => hg y (List.mem_cons_of_mem x hy))

/-- The scan loop either keeps the initial candidate or returns some row with
its score. -/
lemma scanBest_cases (f : TaxRow → ℚ) :
    ∀ (rows : List TaxRow) (init : Cand),
      scanBest f init rows = init ∨
        ∃ r ∈ rows, scanBest f init rows = ⟨r.code, r.title, f r⟩ := by
  intro rows
  induction rows with
  | nil => intro init; left; rfl
  | cons r rs ih =>
    intro init
    have hstep : scanBest f init (r :: rs) =
        scanBest f (if init.score < f r then ⟨r.code, r.title, f r⟩ else init) rs := rfl
    rcases ih (if init.score < f r then ⟨r.code, r.title, f r⟩ else init) with h | ⟨r', hr', h⟩
    · rw [hstep, h]
      by_cases hlt : init.score < f r
      · right
        exact ⟨r, List.mem_cons_self r rs, by rw [if_pos hlt]⟩
      · left
        rw [if_neg hlt]
    · right
      exact ⟨r', List.mem_cons_of_mem r hr', by rw [hstep, h]⟩

/-- The scan loop never decreases the running best score. -/
lemma scanBest_init_le (f : TaxRow → ℚ) :
    ∀ (rows : List TaxRow) (init : Cand), init.score ≤ (scanBest f init rows).score := by
  intro rows
  induction rows with
  | nil => intro init; exact le_refl _
  | cons r rs ih =>
    intro init
    have h1 : init.score ≤ (if init.score < f r then (⟨r.code, r.title, f r⟩ : Cand)
        else init).score := by
      by_cases hlt : init.score < f r
      · rw [if_pos hlt]; exact le_of_lt hlt
      · rw [if_neg hlt]
    exact le_trans h1 (ih _)

/-- The final best score dominates the score of every scanned row. -/
lemma scanBest_ge_of_mem (f : TaxRow → ℚ) :
    ∀ (rows : List TaxRow) (init : Cand) (r : TaxRow), r ∈ rows →
      f r ≤ (scanBest f init rows).score := by
  intro rows
  induction rows with
  | nil => intro init r h; cases h
  | cons x xs ih =>
    intro init r hr
    rcases List.mem_cons.mp hr with rfl | h
    · refine le_trans ?_ (scanBest_init_le f xs _)
      show f r ≤ (if init.score < f r then (⟨r.code, r.title, f r⟩ : Cand) else init).score
      by_cases hlt : init.score < f r
      · rw [if_pos hlt]
      · rw [if_neg hlt]; exact le_of_not_lt hlt
    · exact ih _ r h

/-- If no row beats the initial score, the scan keeps the initial candidate
(the replacement condition is strict). -/
lemma scanBest_id_of_le (f : TaxRow → ℚ) :
    ∀ (rows : List TaxRow) (init : Cand), (∀ r ∈ rows, f r ≤ init.score) →
      scanBest f init rows = init := by
  intro rows
  induction rows with
  | nil => intro init _; rfl
  | cons x xs ih =>
    intro init h
    have hx : ¬ init.score < f x := not_lt_of_le (h x (List.mem_cons_self x xs))
    have hstep : scanBest f init (x :: xs) =
        scanBest f (if init.score < f x then ⟨x.code, x.title, f x⟩ else init) xs := rfl
    rw [hstep, if_neg hx]
    exact ih init (fun r hr => h r (List.mem_cons_of_mem x hr))

/-- If some row strictly beats the initial score, the scan returns a row
(never the initial candidate), and its score strictly beats the initial one. -/
lemma scanBest_beats (f : TaxRow → ℚ) (rows : List TaxRow) (init : Cand)
    (h : ∃ r ∈ rows, init.score < f r) :
    ∃ r ∈ rows, scanBest f init rows = ⟨r.code, r.title, f r⟩ ∧ init.score < f r := by
  obtain ⟨r, hr, hlt⟩ := h
  have hge := scanBest_ge_of_mem f rows init r hr
  rcases scanBest_cases f rows init with hc | ⟨r', hr', hc⟩
  · rw [hc] at hge
    exact absurd (lt_of_lt_of_le hlt hge) (lt_irrefl _)
  · refine ⟨r', hr', hc, ?_⟩
    rw [hc] at hge
    exact lt_of_lt_of_le hlt hge

/-- Score bounds propagate through the scan loop. -/
lemma scanBest_bounds (f : TaxRow → ℚ) (rows : List TaxRow) (init : Cand)
    (h0 : 0 ≤ init.score) (h1 : init.score ≤ 1)
    (hf : ∀ r ∈ rows, 0 ≤ f r ∧ f r ≤ 1) :
    0 ≤ (scanBest f init rows).score ∧ (scanBest f init rows).score ≤ 1 := by
  rcases scanBest_cases f rows init with h | ⟨r, hr, h⟩ <;> rw [h]
  · exact ⟨h0, h1⟩
  · exact hf r hr

lemma applyBoost_code (m : ℚ) (c : Cand) : (applyBoost m c).code = c.code := by
  unfold applyBoost
  split <;> rfl

lemma applyBoost_title (m : ℚ) (c : Cand) : (applyBoost m c).title = c.title := by
  unfold applyBoost
  split <;> rfl

lemma applyBoost_bounds (m : ℚ) (c : Cand) (hm : 0 ≤ m)
    (h0 : 0 ≤ c.score) (h1 : c.score ≤ 1) :
    0 ≤ (applyBoost m c).score ∧ (applyBoost m c).score ≤ 1 := by
  unfold applyBoost
  split
  · exact ⟨le_min (mul_nonneg h0 hm) zero_le_one, min_le_right _ _⟩
  · exact ⟨h0, h1⟩

/-- A candidate that keeps a score at most its initial value is unchanged by
`applyBoost` when that value is at most 1/2 — specialised below. -/
lemma applyBoost_of_le_half (m : ℚ) (c : Cand) (h : c.score ≤ 1/2) :
    applyBoost m c = c := by
  unfold applyBoost
  rw [if_neg (not_lt_of_le h)]

lemma synKeyContrib_nonneg (w1 w2 : String) (e : String × List String) :
    0 ≤ synKeyContrib w1 w2 e := by
  unfold synKeyContrib
  split_ifs <;> norm_num

lemma semPairScore_nonneg (w1 w2 : String) : 0 ≤ semPairScore w1 w2 := by
  unfold semPairScore
  split
  · norm_num
  · exact foldl_add_nonneg (synKeyContrib w1 w2) all_synonyms 0 (le_refl 0)
      (fun e _ => synKeyContrib_nonneg w1 w2 e)

lemma calculate_semantic_similarity_nonneg (t1 t2 : String) :
    0 ≤ calculate_semantic_similarity t1 t2 := by
  unfold calculate_semantic_similarity
  refine le_min ?_ zero_le_one
  exact foldl_add_nonneg _ (wordSet t1) 0 (le_refl 0)
    (fun w1 _ => foldl_add_nonneg (fun w2 => semPairScore w1 w2) (wordSet t2) 0 (le_refl 0)
      (fun w2 _ => semPairScore_nonneg w1 w2))

lemma enhanced_text_matching_nonneg (s t : String) : 0 ≤ enhanced_text_matching s t := by
  simp only [enhanced_text_matching]
  split
  · exact le_refl 0
  · refine le_min ?_ zero_le_one
    have h1 : (0:ℚ) ≤ (((wordSet s).filter (fun w => (wordSet t).contains w)).length : ℚ) /
        (wordSet s).length := by positivity
    have h2 : (0:ℚ) ≤ ((((wordSet s).filter (fun w =>
        decide (4 ≤ w.length) && (wordSet t).any
          (fun u => substrOf w u || substrOf u w))).length : ℚ)) / (wordSet s).length := by
      positivity
    have h3 := calculate_semantic_similarity_nonneg s t
    have e1 : (0:ℚ) ≤ (((wordSet s).filter (fun w => (wordSet t).contains w)).length : ℚ) /
        (wordSet s).length * (1/2) := mul_nonneg h1 (by norm_num)
    have e2 : (0:ℚ) ≤ ((((wordSet s).filter (fun w =>
        decide (4 ≤ w.length) && (wordSet t).any
          (fun u => substrOf w u || substrOf u w))).length : ℚ)) / (wordSet s).length *
        (3/10) := mul_nonneg h2 (by norm_num)
    have e3 : (0:ℚ) ≤ calculate_semantic_similarity s t * (1/5) :=
      mul_nonneg h3 (by norm_num)
    exact add_nonneg (add_nonneg e1 e2) e3

lemma enhanced_text_matching_le_one (s t : String) : enhanced_text_matching s t ≤ 1 := by
  simp only [enhanced_text_matching]
  split
  · exact zero_le_one
  · exact min_le_right _ _

lemma calculate_enhanced_keyword_score_nonneg (ks : List String) (t : String) :
    0 ≤ calculate_enhanced_keyword_score ks t := by
  unfold calculate_enhanced_keyword_score
  split
  · exact le_refl 0
  · refine le_min ?_ zero_le_one
    positivity

lemma calculate_enhanced_keyword_score_le_one (ks : List String) (t : String) :
    calculate_enhanced_keyword_score ks t ≤ 1 := by
  unfold calculate_enhanced_keyword_score
  split
  · exact zero_le_one
  · exact min_le_right _ _

lemma companyPatternContrib_nonneg (c t : String) (e : String × List String) :
    0 ≤ companyPatternContrib c t e := by
  unfold companyPatternContrib
  split_ifs <;> norm_num

lemma calculate_company_industry_score_nonneg (c t : String) :
    0 ≤ calculate_company_industry_score c t := by
  unfold calculate_company_industry_score
  refine le_min ?_ zero_le_one
  exact foldl_add_nonneg (companyPatternContrib c t) industry_patterns 0 (le_refl 0)
    (fun e _ => companyPatternContrib_nonneg c t e)

lemma jobPairContrib_nonneg (j s : String) : 0 ≤ jobPairContrib j s := by
  unfold jobPairContrib
  split_ifs <;> norm_num

lemma jobSynonymBoost_nonneg (j s : String) : 0 ≤ jobSynonymBoost j s := by
  unfold jobSynonymBoost
  exact foldl_add_nonneg _ (wordSet j) 0 (le_refl 0)
    (fun w1 _ => foldl_add_nonneg (fun w2 => jobPairContrib w1 w2) (wordSet s) 0 (le_refl 0)
      (fun w2 _ => jobPairContrib_nonneg w1 w2))

lemma calculate_enhanced_job_match_nonneg (j s : String) :
    0 ≤ calculate_enhanced_job_match j s := by
  unfold calculate_enhanced_job_match
  split
  · exact le_refl 0
  · refine le_min ?_ zero_le_one
    have h1 : (0:ℚ) ≤ (wordOverlapCount j s : ℚ) / (wordUnionCount j s : ℚ) := by positivity
    have h2 := jobSynonymBoost_nonneg j s
    have h3 : (0:ℚ) ≤ if hasSeniorityMarker j = hasSeniorityMarker s then (1:ℚ)/10 else 0 := by
      split <;> norm_num
    exact add_nonneg (add_nonneg h1 h2) h3

lemma calculate_enhanced_job_match_le_one (j s : String) :
    calculate_enhanced_job_match j s ≤ 1 := by
  unfold calculate_enhanced_job_match
  split
  · exact zero_le_one
  · exact min_le_right _ _

lemma compatTail_bounds (i s : String) : 0 ≤ compatTail i s ∧ compatTail i s ≤ 1 := by
  unfold compatTail
  split_ifs <;> norm_num

lemma calculate_ssic_sso_compatibility_bounds (i s : String) :
    0 ≤ calculate_ssic_sso_compatibility i s ∧ calculate_ssic_sso_compatibility i s ≤ 1 := by
  unfold calculate_ssic_sso_compatibility
  split
  · norm_num
  · rcases hfind : compatibility_patterns.find? (fun e => e.1 == strTake i 2) with _ | e
    · simp only [hfind]
      exact compatTail_bounds i s
    · simp only [hfind]
      split
      · have he : e ∈ compatibility_patterns := List.mem_of_find?_eq_some hfind
        have hall : ∀ x ∈ compatibility_patterns, 0 ≤ x.2.2 ∧ x.2.2 ≤ 1 := by
          intro x hx
          fin_cases hx <;> norm_num
        exact hall e he
      · exact compatTail_bounds i s

lemma ssicRowScore5_bounds (c d : String) (r : TaxRow) :
    0 ≤ ssicRowScore5 c d r ∧ ssicRowScore5 c d r ≤ 1 := by
  constructor
  · simp only [ssicRowScore5]
    refine le_min ?_ zero_le_one
    have h1 := enhanced_text_matching_nonneg (lowerStr (c ++ " " ++ d)) (lowerStr r.title)
    have h2 := calculate_enhanced_keyword_score_nonneg
      (extract_industry_keywords (lowerStr (c ++ " " ++ d))) (lowerStr r.title)
    have h3 := calculate_company_industry_score_nonneg (lowerStr c) (lowerStr r.title)
    split_ifs <;> linarith
  · simp only [ssicRowScore5]
    exact min_le_right _ _

lemma ssicRowScore4_bounds (c d : String) (r : TaxRow) :
    0 ≤ ssicRowScore4 c d r ∧ ssicRowScore4 c d r ≤ 1 := by
  constructor
  · simp only [ssicRowScore4]
    refine le_min ?_ zero_le_one
    have h1 := enhanced_text_matching_nonneg (lowerStr (c ++ " " ++ d)) (lowerStr r.title)
    have h2 := calculate_enhanced_keyword_score_nonneg
      (extract_industry_keywords (lowerStr (c ++ " " ++ d))) (lowerStr r.title)
    have h3 := calculate_company_industry_score_nonneg (lowerStr c) (lowerStr r.title)
    split_ifs <;> linarith
  · simp only [ssicRowScore4]
    exact min_le_right _ _

lemma ssoRowScore5_bounds (c j d : String) (r : TaxRow) :
    0 ≤ ssoRowScore5 c j d r ∧ ssoRowScore5 c j d r ≤ 1 := by
  constructor
  · simp only [ssoRowScore5]
    refine le_min ?_ zero_le_one
    have h1 := enhanced_text_matching_nonneg (lowerStr j) (lowerStr r.title)
    have h2 := enhanced_text_matching_nonneg (lowerStr d) (lowerStr r.title)
    have h3 := calculate_enhanced_keyword_score_nonneg
      (extract_job_keywords (lowerStr (c ++ " " ++ j ++ " " ++ d))) (lowerStr r.title)
    have h4 := calculate_enhanced_job_match_nonneg (lowerStr j) (lowerStr r.title)
    split_ifs <;> linarith
  · simp only [ssoRowScore5]
    exact min_le_right _ _

lemma ssoRowScore4_bounds (c j d : String) (r : TaxRow) :
    0 ≤ ssoRowScore4 c j d r ∧ ssoRowScore4 c j d r ≤ 1 := by
  constructor
  · simp only [ssoRowScore4]
    refine le_min ?_ zero_le_one
    have h1 := enhanced_text_matching_nonneg (lowerStr j) (lowerStr r.title)
    have h2 := enhanced_text_matching_nonneg (lowerStr d) (lowerStr r.title)
    have h3 := calculate_enhanced_keyword_score_nonneg
      (extract_job_keywords (lowerStr (c ++ " " ++ j ++ " " ++ d))) (lowerStr r.title)
    have h4 := calculate_enhanced_job_match_nonneg (lowerStr j) (lowerStr r.title)
    split_ifs <;> linarith
  · simp only [ssoRowScore4]
    exact min_le_right _ _

lemma ssicAnalysisRowScore_bounds (c d s : String) (r : TaxRow) :
    0 ≤ ssicAnalysisRowScore c d s r ∧ ssicAnalysisRowScore c d s r ≤ 1 := by
  constructor
  · simp only [ssicAnalysisRowScore]
    refine le_min ?_ zero_le_one
    have h1 := enhanced_text_matching_nonneg (lowerStr (c ++ " " ++ d)) (lowerStr r.title)
    have h2 := calculate_enhanced_keyword_score_nonneg
      (extract_industry_keywords (lowerStr (c ++ " " ++ d))) (lowerStr r.title)
    have h3 := calculate_company_industry_score_nonneg (lowerStr (c ++ " " ++ d))
      (lowerStr r.title)
    have h4 := (calculate_ssic_sso_compatibility_bounds r.code s).1
    split_ifs <;> linarith
  · simp only [ssicAnalysisRowScore]
    exact min_le_right _ _

lemma find_best_sso_match_bounds (tbl : List TaxRow) (c j d : String) :
    0 ≤ (find_best_sso_match tbl c j d).score ∧ (find_best_sso_match tbl c j d).score ≤ 1 := by
  simp only [find_best_sso_match]
  have h5 := scanBest_bounds (ssoRowScore5 c j d) (tbl.filter (fun r => r.code.length == 5))
    ⟨"", "", 0⟩ (le_refl 0) zero_le_one (fun r _ => ssoRowScore5_bounds c j d r)
  refine applyBoost_bounds _ _ (by norm_num) ?_ ?_
  · split
    · exact (scanBest_bounds _ _ _ h5.1 h5.2 (fun r _ => ssoRowScore4_bounds c j d r)).1
    · exact h5.1
  · split
    · exact (scanBest_bounds _ _ _ h5.1 h5.2 (fun r _ => ssoRowScore4_bounds c j d r)).2
    · exact h5.2

lemma find_best_5digit_ssic_match_bounds (tbl : List TaxRow) (c d s : String) :
    0 ≤ (find_best_5digit_ssic_match tbl c d s).score ∧
      (find_best_5digit_ssic_match tbl c d s).score ≤ 1 := by
  simp only [find_best_5digit_ssic_match]
  split
  · constructor <;> norm_num [ssicSentinel]
  · have h5 := scanBest_bounds (ssicAnalysisRowScore c d s)
      (tbl.filter (fun r => r.code.length == 5)) ⟨"", "", 0⟩ (le_refl 0) zero_le_one
      (fun r _ => ssicAnalysisRowScore_bounds c d s r)
    exact applyBoost_bounds _ _ (by norm_num) h5.1 h5.2

lemma mem_filter_len (tbl : List TaxRow) (n : ℕ) (r : TaxRow)
    (h : r ∈ tbl.filter (fun r => r.code.length == n)) : r ∈ tbl ∧ r.code.length = n := by
  have h2 := List.mem_filter.mp h
  exact ⟨h2.1, by simpa using h2.2⟩

/-- The code returned by the SSO matcher is either the untouched initial `""`
or the code of a 5- or 4-digit row of the table. -/
lemma find_best_sso_match_code (tbl : List TaxRow) (c j d : String) :
    (find_best_sso_match tbl c j d).code = "" ∨
      ∃ r ∈ tbl, (find_best_sso_match tbl c j d).code = r.code ∧
        (r.code.length = 5 ∨ r.code.length = 4) := by
  simp only [find_best_sso_match, applyBoost_code]
  split
  · rcases scanBest_cases (ssoRowScore4 c j d) (tbl.filter (fun r => r.code.length == 4))
        (scanBest (ssoRowScore5 c j d) ⟨"", "", 0⟩ (tbl.filter (fun r => r.code.length == 5)))
      with h | ⟨r, hr, h⟩
    · rw [h]
      rcases scanBest_cases (ssoRowScore5 c j d) (tbl.filter (fun r => r.code.length == 5))
          ⟨"", "", 0⟩ with h2 | ⟨r, hr, h2⟩
      · rw [h2]; left; rfl
      · rw [h2]
        obtain ⟨hmem, hlen⟩ := mem_filter_len tbl 5 r hr
        exact Or.inr ⟨r, hmem, rfl, Or.inl hlen⟩
    · rw [h]
      obtain ⟨hmem, hlen⟩ := mem_filter_len tbl 4 r hr
      exact Or.inr ⟨r, hmem, rfl, Or.inr hlen⟩
  · rcases scanBest_cases (ssoRowScore5 c j d) (tbl.filter (fun r => r.code.length == 5))
        ⟨"", "", 0⟩ with h2 | ⟨r, hr, h2⟩
    · rw [h2]; left; rfl
    · rw [h2]
      obtain ⟨hmem, hlen⟩ := mem_filter_len tbl 5 r hr
      exact Or.inr ⟨r, hmem, rfl, Or.inl hlen⟩

/-- The SSIC code returned by `_find_best_5digit_ssic_match` is either the
`99999` sentinel or the code of a 5-digit row of the table. -/
lemma find_best_5digit_ssic_match_code (tbl : List TaxRow) (c d s : String) :
    (find_best_5digit_ssic_match tbl c d s).code = "99999" ∨
      ∃ r ∈ tbl, (find_best_5digit_ssic_match tbl c d s).code = r.code ∧ r.code.length = 5 := by
  simp only [find_best_5digit_ssic_match]
  split
  · left; rfl
  · rename_i hne
    rcases scanBest_cases (ssicAnalysisRowScore c d s)
        (tbl.filter (fun r => r.code.length == 5)) ⟨"", "", 0⟩ with h2 | ⟨r, hr, h2⟩
    · exact absurd (by rw [applyBoost_code, h2]) hne
    · rw [applyBoost_code, h2]
      obtain ⟨hmem, hlen⟩ := mem_filter_len tbl 5 r hr
      exact Or.inr ⟨r, hmem, rfl, hlen⟩

/-- When no 5-digit SSIC row scores above zero, `_find_best_5digit_ssic_match`
returns the `99999` sentinel with score 0.2. -/
lemma find_best_5digit_ssic_match_sentinel (tbl : List TaxRow) (c d s : String)
    (h : ∀ r ∈ tbl.filter (fun r => r.code.length == 5), ssicAnalysisRowScore c d s r ≤ 0) :
    find_best_5digit_ssic_match tbl c d s = ssicSentinel := by
  simp only [find_best_5digit_ssic_match]
  have hb : scanBest (ssicAnalysisRowScore c d s) ⟨"", "", 0⟩
      (tbl.filter (fun r => r.code.length == 5)) = ⟨"", "", 0⟩ :=
    scanBest_id_of_le _ _ _ h
  rw [hb, applyBoost_of_le_half _ _ (by norm_num)]
  rfl

lemma ai_enhanced_sso_classification_bounds (tbl : List TaxRow) (c j d : String)
    (o : AIOracle) :
    0 ≤ (ai_enhanced_sso_classification tbl c j d o).score ∧
      (ai_enhanced_sso_classification tbl c j d o).score ≤ 1 := by
  rcases ho : o.ssoResp with e | resp <;> simp only [ai_enhanced_sso_classification, ho]
  · exact find_best_sso_match_bounds tbl c j d
  · rcases hfind : tbl.find? (fun r => r.code == digitsTake5 resp) with _ | row <;>
      simp only [hfind]
    · exact find_best_sso_match_bounds tbl c j d
    · exact ⟨by norm_num, by norm_num⟩

lemma ai_enhanced_ssic_classification_bounds (tbl : List TaxRow) (c cd s : String)
    (o : AIOracle) :
    0 ≤ (ai_enhanced_ssic_classification tbl c cd s o).score ∧
      (ai_enhanced_ssic_classification tbl c cd s o).score ≤ 1 := by
  rcases ho : o.ssicResp with e | resp <;> simp only [ai_enhanced_ssic_classification, ho]
  · exact find_best_5digit_ssic_match_bounds tbl c cd s
  · split
    · rcases hfind : tbl.find? (fun r => r.code == digitsTake5 resp) with _ | row <;>
        simp only [hfind]
      · exact find_best_5digit_ssic_match_bounds tbl c cd s
      · exact ⟨by norm_num, by norm_num⟩
    · exact find_best_5digit_ssic_match_bounds tbl c cd s

lemma pyRound1_bounds (x : ℚ) (h0 : 0 ≤ x) (h1 : x ≤ 100) :
    0 ≤ pyRound1 x ∧ pyRound1 x ≤ 100 := by
  unfold pyRound1
  have hlo : (0:ℤ) ≤ round (x * 10) := by
    rw [round_eq]
    exact Int.floor_nonneg.mpr (by linarith)
  have hhi : round (x * 10) ≤ 1000 := by
    rw [round_eq]
    calc ⌊x * 10 + 1/2⌋ ≤ ⌊(1000:ℚ) + 1/2⌋ := Int.floor_le_floor (by linarith)
      _ = 1000 := by norm_num
  constructor
  · positivity
  · rw [div_le_iff₀ (by norm_num : (0:ℚ) < 10)]
    calc ((round (x * 10) : ℤ) : ℚ) ≤ 1000 := by exact_mod_cast hhi
      _ = 100 * 10 := by norm_num

/-- With no AI credential, `classify_job` is the plain composition of the two
lexical matchers, with the default generated description text. -/
lemma classify_job_none (ssicTbl ssocTbl : List TaxRow) (c j d : String) :
    classify_job ssicTbl ssocTbl none c j d =
      { ssic := ⟨(find_best_5digit_ssic_match ssicTbl c
            ("Business operations related to " ++ c)
            (find_best_sso_match ssocTbl c j d).code).code,
          (find_best_5digit_ssic_match ssicTbl c ("Business operations related to " ++ c)
            (find_best_sso_match ssocTbl c j d).code).title,
          pyRound1 ((find_best_5digit_ssic_match ssicTbl c
            ("Business operations related to " ++ c)
            (find_best_sso_match ssocTbl c j d).code).score * 100)⟩
        sso := ⟨(find_best_sso_match ssocTbl c j d).code,
          (find_best_sso_match ssocTbl c j d).title,
          pyRound1 ((find_best_sso_match ssocTbl c j d).score * 100)⟩
        company_description := none } := rfl

/-- Whatever the AI oracle does, the record assembled by `classify_job` is
built from two candidates whose raw scores lie in [0, 1]. -/
lemma classify_job_scores (ssicTbl ssocTbl : List TaxRow) (ai : Option AIOracle)
    (c j d : String) :
    ∃ (sC oC : Cand) (cd : Option String),
      (0 ≤ sC.score ∧ sC.score ≤ 1) ∧ (0 ≤ oC.score ∧ oC.score ≤ 1) ∧
      classify_job ssicTbl ssocTbl ai c j d =
        { ssic := ⟨sC.code, sC.title, pyRound1 (sC.score * 100)⟩
          sso := ⟨oC.code, oC.title, pyRound1 (oC.score * 100)⟩
          company_description := cd } := by
  cases ai with
  | none =>
    exact ⟨find_best_5digit_ssic_match ssicTbl c ("Business operations related to " ++ c)
        (find_best_sso_match ssocTbl c j d).code,
      find_best_sso_match ssocTbl c j d, none,
      find_best_5digit_ssic_match_bounds _ _ _ _,
      find_best_sso_match_bounds _ _ _ _, rfl⟩
  | some o =>
    refine ⟨if generate_company_description c o ≠ "" then
        ai_enhanced_ssic_classification ssicTbl c (generate_company_description c o)
          (ai_enhanced_sso_classification ssocTbl c j d o).code o
      else
        find_best_5digit_ssic_match ssicTbl c ("Business operations related to " ++ c)
          (ai_enhanced_sso_classification ssocTbl c j d o).code,
      ai_enhanced_sso_classification ssocTbl c j d o,
      if generate_company_description c o ≠ "" then some (generate_company_description c o)
      else none, ?_, ai_enhanced_sso_classification_bounds _ _ _ _ _, rfl⟩
    split
    · exact ai_enhanced_ssic_classification_bounds _ _ _ _ _
    · exact find_best_5digit_ssic_match_bounds _ _ _ _

/-! ### Claim theorems -/

/-- C4: for every pair of taxonomy tables, every AI-oracle configuration and
every query, both `confidencePercent` values returned by `classify_job` lie in
[0, 100]: every candidate score is clamped to [0, 1] before and after the
multiplicative boosts, and the confidence is that score times 100 rounded to
one decimal. -/
theorem spec_C4 (ssicTbl ssocTbl : List TaxRow) (ai : Option AIOracle) (c j d : String) :
    0 ≤ (classify_job ssicTbl ssocTbl ai c j d).ssic.confidence ∧
    (classify_job ssicTbl ssocTbl ai c j d).ssic.confidence ≤ 100 ∧
    0 ≤ (classify_job ssicTbl ssocTbl ai c j d).sso.confidence ∧
    (classify_job ssicTbl ssocTbl ai c j d).sso.confidence ≤ 100 := by
  obtain ⟨sC, oC, cd, hs, ho, heq⟩ := classify_job_scores ssicTbl ssocTbl ai c j d
  rw [heq]
  have h1 := pyRound1_bounds (sC.score * 100) (mul_nonneg hs.1 (by norm_num))
    (by linarith [hs.2])
  have h2 := pyRound1_bounds (oC.score * 100) (mul_nonneg ho.1 (by norm_num))
    (by linarith [ho.2])
  exact ⟨h1.1, h1.2, h2.1, h2.2⟩

unseal Rat.add Rat.mul Rat.sub Rat.inv Nat.gcd in
/-- C1 (counterexample): on an empty occupation table no row ever scores above
zero, so `classify_job` (no AI credential) returns occupation code `""` — the
empty string is not the code of any table row and differs from both sentinels
`Unknown` and `99999`, contradicting the claim as stated. -/
theorem spec_C1_counterexample :
    (classify_job [] [] none "a" "b" "c").sso.code = "" ∧
    (classify_job [] [] none "a" "b" "c").sso.code ≠ "Unknown" ∧
    (classify_job [] [] none "a" "b" "c").sso.code ≠ "99999" := by
  decide

/-- C1 (amended): for every pair of taxonomy tables and every query with no AI
credential, the returned `industry.code` is either a row code of the industry
table or the not-elsewhere-specified sentinel `99999`, and the returned
`occupation.code` is either a row code of the occupation table or the empty
string (the untouched initial value, returned when nothing scores above
zero; the `Unknown` sentinel arises only from the exception handler). -/
theorem spec_C1_amended (ssicTbl ssocTbl : List TaxRow) (c j d : String) :
    ((classify_job ssicTbl ssocTbl none c j d).ssic.code = "99999" ∨
      ∃ r ∈ ssicTbl, (classify_job ssicTbl ssocTbl none c j d).ssic.code = r.code) ∧
    ((classify_job ssicTbl ssocTbl none c j d).sso.code = "" ∨
      ∃ r ∈ ssocTbl, (classify_job ssicTbl ssocTbl none c j d).sso.code = r.code) := by
  rw [classify_job_none]
  constructor
  · rcases find_best_5digit_ssic_match_code ssicTbl c
        ("Business operations related to " ++ c)
        (find_best_sso_match ssocTbl c j d).code with h | ⟨r, hr, hcode, _⟩
    · left; exact h
    · right; exact ⟨r, hr, hcode⟩
  · rcases find_best_sso_match_code ssocTbl c j d with h | ⟨r, hr, hcode, _⟩
    · left; exact h
    · right; exact ⟨r, hr, hcode⟩

/-- C2: with no AI credential the body of `classify_job` always succeeds —
nothing is raised, the produced codes are never the `Unknown` failure sentinel
— and any exception reaching the orchestrator's `try/except` boundary is
converted into the `Unknown`/0-confidence record instead of propagating. -/
theorem spec_C2 (ssicTbl ssocTbl : List TaxRow) (c j d : String) :
    classifyBody ssicTbl ssocTbl none c j d =
      Except.ok (classify_job ssicTbl ssocTbl none c j d) ∧
    (classify_job ssicTbl ssocTbl none c j d).ssic.code ≠ "Unknown" ∧
    (classify_job ssicTbl ssocTbl none c j d).sso.code ≠ "Unknown" ∧
    (∀ e : String, classifyCatch (Except.error e) = unknownResult) := by
  refine ⟨rfl, ?_, ?_, fun e => rfl⟩
  · have hx : (classify_job ssicTbl ssocTbl none c j d).ssic.code =
        (find_best_5digit_ssic_match ssicTbl c ("Business operations related to " ++ c)
          (find_best_sso_match ssocTbl c j d).code).code := rfl
    rw [hx]
    rcases find_best_5digit_ssic_match_code ssicTbl c
        ("Business operations related to " ++ c)
        (find_best_sso_match ssocTbl c j d).code with h | ⟨r, _, hcode, hlen⟩
    · rw [h]; decide
    · rw [hcode]
      intro heq
      rw [heq] at hlen
      exact absurd hlen (by decide)
  · have hx : (classify_job ssicTbl ssocTbl none c j d).sso.code =
        (find_best_sso_match ssocTbl c j d).code := rfl
    rw [hx]
    rcases find_best_sso_match_code ssocTbl c j d with h | ⟨r, _, hcode, hlen⟩
    · rw [h]; decide
    · rw [hcode]
      intro heq
      rw [heq] at hlen
      rcases hlen with h5 | h4
      · exact absurd h5 (by decide)
      · exact absurd h4 (by decide)

/-- C3: whenever no 5-digit row of the industry table scores above zero for
the query (in particular for an empty industry table), `classify_job` with no
AI credential returns the industry sentinel `99999` titled "Other activities
not elsewhere specified" with confidence 20.0% — and, being total, it does
not raise. -/
theorem spec_C3 (ssicTbl ssocTbl : List TaxRow) (c j d : String)
    (h : ∀ r ∈ ssicTbl.filter (fun t => t.code.length == 5),
      ssicAnalysisRowScore c ("Business operations related to " ++ c)
        (find_best_sso_match ssocTbl c j d).code r ≤ 0) :
    (classify_job ssicTbl ssocTbl none c j d).ssic =
      ⟨"99999", "Other activities not elsewhere specified", 20⟩ := by
  have hs := find_best_5digit_ssic_match_sentinel ssicTbl c
    ("Business operations related to " ++ c) (find_best_sso_match ssocTbl c j d).code h
  have hx : (classify_job ssicTbl ssocTbl none c j d).ssic =
      ⟨(find_best_5digit_ssic_match ssicTbl c ("Business operations related to " ++ c)
          (find_best_sso_match ssocTbl c j d).code).code,
        (find_best_5digit_ssic_match ssicTbl c ("Business operations related to " ++ c)
          (find_best_sso_match ssocTbl c j d).code).title,
        pyRound1 ((find_best_5digit_ssic_match ssicTbl c
          ("Business operations related to " ++ c)
          (find_best_sso_match ssocTbl c j d).code).score * 100)⟩ := rfl
  rw [hx, hs]
  show (⟨"99999", "Other activities not elsewhere specified",
    pyRound1 ((1/5 : ℚ) * 100)⟩ : CodeRec) = _
  have : pyRound1 ((1/5 : ℚ) * 100) = 20 := by
    norm_num [pyRound1, round_eq]
  rw [this]

unseal Rat.add Rat.mul Rat.sub Rat.inv Nat.gcd in
/-- C3 (witness): the empty industry table satisfies the hypothesis, and the
conclusion instantiates to a concrete evaluation. -/
theorem spec_C3_witness :
    (classify_job [] [] none "acme" "cook" "cooking").ssic =
      ⟨"99999", "Other activities not elsewhere specified", 20⟩ :=
  spec_C3 [] [] "acme" "cook" "cooking" (by simp)

/-- The best 5-digit candidate of the SSO two-tier matcher (its first pass). -/
def ssoBest5 (tbl : List TaxRow) (c j d : String) : Cand :=
  scanBest (ssoRowScore5 c j d) ⟨"", "", 0⟩ (tbl.filter (fun r => r.code.length == 5))

/-- The best 5-digit candidate of the SSIC two-tier matcher (its first pass). -/
def ssicBest5 (tbl : List TaxRow) (c d : String) : Cand :=
    scanBest (ssicRowScore5 c d) ⟨"", "", 0⟩ (tbl.filter (fun r => r.code.length == 5))

/-- C5: both two-tier matchers scan all 5-digit rows first and keep the best;
when the best 5-digit score reaches 0.4 the result is just the boosted best
5-digit candidate (no 4-digit influence); when it is below 0.4 and no 4-digit
row strictly beats it, the result is still the boosted 5-digit best; and when
a 4-digit row strictly beats it, the returned code is a 4-digit row code —
the digit length reflects whichever tier won. -/
theorem spec_C5 (ssicTbl ssocTbl : List TaxRow) (c j d : String) :
    (2/5 ≤ (ssoBest5 ssocTbl c j d).score →
      find_best_sso_match ssocTbl c j d = applyBoost (5/4) (ssoBest5 ssocTbl c j d)) ∧
    ((∀ r ∈ ssocTbl.filter (fun r => r.code.length == 4),
        ssoRowScore4 c j d r ≤ (ssoBest5 ssocTbl c j d).score) →
      find_best_sso_match ssocTbl c j d = applyBoost (5/4) (ssoBest5 ssocTbl c j d)) ∧
    ((ssoBest5 ssocTbl c j d).score < 2/5 →
      (∃ r ∈ ssocTbl.filter (fun r => r.code.length == 4),
        (ssoBest5 ssocTbl c j d).score < ssoRowScore4 c j d r) →
      (find_best_sso_match ssocTbl c j d).code.length = 4 ∧
        ∃ r ∈ ssocTbl, r.code.length = 4 ∧
          (find_best_sso_match ssocTbl c j d).code = r.code) ∧
    (2/5 ≤ (ssicBest5 ssicTbl c d).score →
      find_best_ssic_match ssicTbl c d = applyBoost (6/5) (ssicBest5 ssicTbl c d)) ∧
    ((∀ r ∈ ssicTbl.filter (fun r => r.code.length == 4),
        ssicRowScore4 c d r ≤ (ssicBest5 ssicTbl c d).score) →
      find_best_ssic_match ssicTbl c d = applyBoost (6/5) (ssicBest5 ssicTbl c d)) ∧
    ((ssicBest5 ssicTbl c d).score < 2/5 →
      (∃ r ∈ ssicTbl.filter (fun r => r.code.length == 4),
        (ssicBest5 ssicTbl c d).score < ssicRowScore4 c d r) →
      (find_best_ssic_match ssicTbl c d).code.length = 4 ∧
        ∃ r ∈ ssicTbl, r.code.length = 4 ∧
          (find_best_ssic_match ssicTbl c d).code = r.code) := by
  refine ⟨?_, ?_, ?_, ?_, ?_, ?_⟩
  · intro h
    simp only [find_best_sso_match, ssoBest5] at h ⊢
    rw [if_neg (not_lt_of_le h)]
  · intro h
    simp only [find_best_sso_match, ssoBest5] at h ⊢
    split
    · rw [scanBest_id_of_le _ _ _ h]
    · rfl
  · intro hlow hbeat
    simp only [find_best_sso_match, ssoBest5] at hlow hbeat ⊢
    rw [if_pos hlow]
    obtain ⟨r, hr, heq, _⟩ := scanBest_beats _ _ _ hbeat
    obtain ⟨hmem, hlen⟩ := mem_filter_len ssocTbl 4 r hr
    rw [applyBoost_code, heq]
    exact ⟨hlen, r, hmem, hlen, rfl⟩
  · intro h
    simp only [find_best_ssic_match, ssicBest5] at h ⊢
    rw [if_neg (not_lt_of_le h)]
  · intro h
    simp only [find_best_ssic_match, ssicBest5] at h ⊢
    split
    · rw [scanBest_id_of_le _ _ _ h]
    · rfl
  · intro hlow hbeat
    simp only [find_best_ssic_match, ssicBest5] at hlow hbeat ⊢
    rw [if_pos hlow]
    obtain ⟨r, hr, heq, _⟩ := scanBest_beats _ _ _ hbeat
    obtain ⟨hmem, hlen⟩ := mem_filter_len ssicTbl 4 r hr
    rw [applyBoost_code, heq]
    exact ⟨hlen, r, hmem, hlen, rfl⟩

unseal Rat.add Rat.mul Rat.sub Rat.inv Nat.gcd in
/-- C5 (witness): a table holding a single 4-digit row whose title matches the
job title: the empty 5-digit pass scores 0, the 4-digit row beats it, and the
returned code is that 4-digit code. -/
theorem spec_C5_witness :
    (find_best_sso_match [⟨"1234", "engineer"⟩] "" "engineer" "").code.length = 4 ∧
    ∃ r ∈ [(⟨"1234", "engineer"⟩ : TaxRow)], r.code.length = 4 ∧
      (find_best_sso_match [⟨"1234", "engineer"⟩] "" "engineer" "").code = r.code :=
  (spec_C5 [] [⟨"1234", "engineer"⟩] "" "engineer" "").2.2.1 (by decide) (by decide)

lemma listStarts_take : ∀ (p t : List Char), listStarts p t = true → t.take p.length = p := by
  intro p
  induction p with
  | nil => intro t _; rfl
  | cons a as ih =>
    intro t h
    cases t with
    | nil => exact absurd h (by simp [listStarts])
    | cons b bs =>
      have h2 := (Bool.and_eq_true _ _).mp h
      have hab : a = b := eq_of_beq h2.1
      simp only [List.length_cons, List.take_succ_cons]
      rw [ih bs h2.2, hab]

lemma strTake_eq_of_startsWith (p s : String) (n : ℕ) (h : strStartsWith p s = true)
    (hn : n ≤ p.length) : strTake s n = strTake p n := by
  have h1 : s.data.take p.data.length = p.data := listStarts_take p.data s.data h
  have hn2 : n ≤ p.data.length := hn
  show (⟨s.data.take n⟩ : String) = ⟨p.data.take n⟩
  have : s.data.take n = p.data.take n := by
    calc s.data.take n = (s.data.take p.data.length).take n := by
          rw [List.take_take, min_eq_left hn2]
      _ = p.data.take n := by rw [h1]
  rw [this]

lemma strStartsWith_ne_empty (p s : String) (hp : p ≠ "") (h : strStartsWith p s = true) :
    s ≠ "" := by
  intro hs
  subst hs
  cases hpd : p.data with
  | nil =>
    apply hp
    cases p
    simp only at hpd
    rw [hpd]
  | cons c cs =>
    rw [show strStartsWith p "" = listStarts p.data [] from rfl, hpd] at h
    exact absurd h (by simp [listStarts])

/-- Dictionary lookup: when the keys are distinct, `find?` returns exactly the
entry carrying the looked-up key. -/
lemma find?_key_eq (l : List (String × List String × ℚ)) (k : String)
    (hnodup : (l.map (fun x => x.1)).Nodup) (e : String × List String × ℚ)
    (he : e ∈ l) (hk : e.1 = k) :
    l.find? (fun x => x.1 == k) = some e := by
  induction l with
  | nil => cases he
  | cons x xs ih =>
    rcases List.mem_cons.mp he with rfl | hmem
    · exact List.find?_cons_of_pos _ (by simp [hk])
    · have hxk : ¬ (x.1 = k) := by
        intro hxk
        apply (List.nodup_cons.mp hnodup).1
        show x.1 ∈ List.map (fun y => y.1) xs
        rw [hxk, ← hk]
        exact List.mem_map.mpr ⟨e, hmem, rfl⟩
      rw [List.find?_cons_of_neg _ (by simp [hxk])]
      exact ih (List.nodup_cons.mp hnodup).2 hmem

lemma compatTail_floor (i s : String)
    (h : (strStartsWith "11" s || strStartsWith "12" s) = true) :
    1/2 ≤ compatTail i s := by
  unfold compatTail
  split
  · norm_num
  · simp [h]

unseal Rat.add Rat.mul Rat.sub Rat.inv Nat.gcd in
/-- C6 (counterexample): the table entry keyed `861` lists occupation prefix
`221` with score 0.9, and `86101`/`22101` meet the claim's matching condition
(3-digit industry prefix `861`, occupation prefix starting with `221`) — yet
the function returns 0, because the lookup only ever uses the *2-character*
industry prefix `86`, which is not a table key.  The entry keyed `861` is
unreachable, contradicting the claim. -/
theorem spec_C6_counterexample :
    calculate_ssic_sso_compatibility "86101" "22101" = 0 ∧
    ("861", (["221", "222", "321", "322"], (9:ℚ)/10)) ∈ compatibility_patterns ∧
    strStartsWith "861" "86101" = true ∧
    strStartsWith "221" (strTake "22101" 3) = true ∧
    (0 : ℚ) ≠ 9/10 := by
  decide

/-- C6 (amended): the function looks up only the industry code's 2-character
prefix in the table (so the entries keyed `841` and `861` are dead, and the
entries `1`, `2`, `3` are matched only by an industry code that is literally
that single character); an industry code starting with `86` falls through to
the management default; industry codes starting `841` are handled by a
separate special case scoring 0.9 for occupation prefixes `11`, `24`, `25`;
and any occupation code starting `11` or `12` scores at least 0.5 whenever
both codes are non-empty. -/
theorem spec_C6_amended (ssicCode ssoCode : String) :
    (∀ e ∈ compatibility_patterns, ssicCode ≠ "" → ssoCode ≠ "" →
      e.1 = strTake ssicCode 2 →
      e.2.1.any (fun p => strStartsWith p (strTake ssoCode 3)) = true →
      calculate_ssic_sso_compatibility ssicCode ssoCode = e.2.2) ∧
    (strStartsWith "86" ssicCode = true →
      calculate_ssic_sso_compatibility ssicCode ssoCode =
        (if strStartsWith "11" ssoCode || strStartsWith "12" ssoCode then 1/2 else 0)) ∧
    (strStartsWith "841" ssicCode = true →
      calculate_ssic_sso_compatibility ssicCode ssoCode =
        (if strStartsWith "11" ssoCode || strStartsWith "24" ssoCode ||
            strStartsWith "25" ssoCode then 9/10
         else if strStartsWith "12" ssoCode then 1/2 else 0)) ∧
    (ssicCode ≠ "" →
      (strStartsWith "11" ssoCode = true ∨ strStartsWith "12" ssoCode = true) →
      1/2 ≤ calculate_ssic_sso_compatibility ssicCode ssoCode) := by
  refine ⟨?_, ?_, ?_, ?_⟩
  · intro e he h1 h2 hkey hany
    unfold calculate_ssic_sso_compatibility
    rw [if_neg (by push_neg; exact ⟨h1, h2⟩)]
    have hfind : compatibility_patterns.find? (fun x => x.1 == strTake ssicCode 2) = some e :=
      find?_key_eq compatibility_patterns (strTake ssicCode 2) (by decide) e he hkey
    simp only [hfind]
    rw [if_pos hany]
  · intro h86
    by_cases hso : ssoCode = ""
    · subst hso
      unfold calculate_ssic_sso_compatibility
      rw [if_pos (Or.inr rfl),
        show (strStartsWith "11" "" || strStartsWith "12" "") = false from rfl]
      rfl
    · have hsic : ssicCode ≠ "" := strStartsWith_ne_empty "86" ssicCode (by decide) h86
      unfold calculate_ssic_sso_compatibility
      rw [if_neg (by push_neg; exact ⟨hsic, hso⟩)]
      have htake : strTake ssicCode 2 = "86" := by
        have h2 := strTake_eq_of_startsWith "86" ssicCode 2 h86 (by decide)
        rw [h2]; rfl
      have hnone : compatibility_patterns.find? (fun x => x.1 == strTake ssicCode 2) =
          none := by
        rw [htake]
        rfl
      simp only [hnone]
      have h841 : strStartsWith "841" ssicCode = false := by
        cases hb : strStartsWith "841" ssicCode
        · rfl
        · have ht2 := strTake_eq_of_startsWith "841" ssicCode 2 hb (by decide)
          rw [htake] at ht2
          exact absurd ht2 (by decide)
      unfold compatTail
      rw [h841, Bool.false_and, if_neg Bool.false_ne_true]
  · intro h841
    by_cases hso : ssoCode = ""
    · subst hso
      unfold calculate_ssic_sso_compatibility
      rw [if_pos (Or.inr rfl),
        show (strStartsWith "11" "" || strStartsWith "24" "" ||
          strStartsWith "25" "") = false from rfl,
        show strStartsWith "12" "" = false from rfl]
      rfl
    · have hsic : ssicCode ≠ "" := strStartsWith_ne_empty "841" ssicCode (by decide) h841
      unfold calculate_ssic_sso_compatibility
      rw [if_neg (by push_neg; exact ⟨hsic, hso⟩)]
      have htake : strTake ssicCode 2 = "84" := by
        have h2 := strTake_eq_of_startsWith "841" ssicCode 2 h841 (by decide)
        rw [h2]; rfl
      have hnone : compatibility_patterns.find? (fun x => x.1 == strTake ssicCode 2) =
          none := by
        rw [htake]
        rfl
      simp only [hnone]
      unfold compatTail
      rw [h841, Bool.true_and]
      cases h11 : strStartsWith "11" ssoCode <;> cases h24 : strStartsWith "24" ssoCode <;>
        cases h25 : strStartsWith "25" ssoCode <;> simp [h11, h24, h25]
  · intro hsic hor
    have hso : ssoCode ≠ "" := by
      rcases hor with h | h
      · exact strStartsWith_ne_empty "11" ssoCode (by decide) h
      · exact strStartsWith_ne_empty "12" ssoCode (by decide) h
    have hor2 : (strStartsWith "11" ssoCode || strStartsWith "12" ssoCode) = true := by
      rcases hor with h | h <;> simp [h]
    unfold calculate_ssic_sso_compatibility
    rw [if_neg (by push_neg; exact ⟨hsic, hso⟩)]
    rcases hfind : compatibility_patterns.find? (fun x => x.1 == strTake ssicCode 2)
        with _ | e <;> simp only [hfind]
    · exact compatTail_floor ssicCode ssoCode hor2
    · have he := List.mem_of_find?_eq_some hfind
      have hscore : 1/2 ≤ e.2.2 := by
        fin_cases he <;> norm_num
      split
      · exact hscore
      · exact compatTail_floor ssicCode ssoCode hor2

unseal Rat.add Rat.mul Rat.sub Rat.inv Nat.gcd in
/-- C6 (witness): the technology entry `62` is matched through the 2-character
lookup (industry `62011`, occupation `25121`, score 0.8), and the management
floor applies to an unlisted industry (`50000`) with a senior-management
occupation (`11000`). -/
theorem spec_C6_witness :
    calculate_ssic_sso_compatibility "62011" "25121" = 4/5 ∧
    1/2 ≤ calculate_ssic_sso_compatibility "50000" "11000" :=
  ⟨(spec_C6_amended "62011" "25121").1
      ("62", (["251", "252", "121", "132", "242"], (4:ℚ)/5))
      (by decide) (by decide) (by decide) (by decide) (by decide),
   (spec_C6_amended "50000" "11000").2.2.2 (by decide) (Or.inl (by decide))⟩

lemma mem_insertByLen (k y : String) :
    ∀ l, y ∈ insertByLen k l ↔ y = k ∨ y ∈ l := by
  intro l
  induction l with
  | nil => simp [insertByLen]
  | cons x xs ih =>
    simp only [insertByLen]
    split
    · simp only [List.mem_cons]
    · simp only [List.mem_cons, ih]
      tauto

lemma insertByLen_pairwise (k : String) :
    ∀ l, l.Pairwise (fun a b => b.length ≤ a.length) →
      (insertByLen k l).Pairwise (fun a b => b.length ≤ a.length) := by
  intro l
  induction l with
  | nil => intro _; simp [insertByLen]
  | cons x xs ih =>
    intro hp
    rw [List.pairwise_cons] at hp
    simp only [insertByLen]
    split
    · rename_i hle
      rw [List.pairwise_cons]
      refine ⟨?_, List.pairwise_cons.mpr hp⟩
      intro y hy
      rcases List.mem_cons.mp hy with rfl | hmem
      · exact hle
      · exact le_trans (hp.1 y hmem) hle
    · rename_i hnle
      rw [List.pairwise_cons]
      refine ⟨?_, ih hp.2⟩
      intro y hy
      rcases (mem_insertByLen k y xs).mp hy with rfl | hmem
      · exact le_of_not_le hnle
      · exact hp.1 y hmem

lemma sortByLenDesc_pairwise (l : List String) :
    (sortByLenDesc l).Pairwise (fun a b => b.length ≤ a.length) := by
  induction l with
  | nil => simp [sortByLenDesc]
  | cons x xs ih => exact insertByLen_pairwise x _ ih

lemma mem_sortByLenDesc (y : String) : ∀ l, y ∈ sortByLenDesc l ↔ y ∈ l := by
  intro l
  induction l with
  | nil => simp [sortByLenDesc]
  | cons x xs ih =>
    show y ∈ insertByLen x (sortByLenDesc xs) ↔ y ∈ x :: xs
    rw [mem_insertByLen, ih, List.mem_cons]

/-- Invariant of the deduplicating fold of `_extract_job_keywords`: it appends
to the accumulator exactly the not-yet-present matching entries, in scan
order. -/
lemma extractFold_spec (tl : String) :
    ∀ (l acc : List String), acc.Nodup →
      ∃ t : List String,
        l.foldl (fun acc k => if substrOf k tl && !(acc.contains k) then acc ++ [k] else acc)
          acc = acc ++ t ∧
        t.Sublist l ∧ (acc ++ t).Nodup ∧
        (∀ k, k ∈ t ↔ k ∉ acc ∧ k ∈ l ∧ substrOf k tl = true) := by
  intro l
  induction l with
  | nil =>
    intro acc hacc
    exact ⟨[], by simp, List.nil_sublist [], by simpa using hacc, by simp⟩
  | cons k ks ih =>
    intro acc hacc
    simp only [List.foldl_cons]
    by_cases hc : (substrOf k tl && !(acc.contains k)) = true
    · rw [if_pos hc]
      have hsub : substrOf k tl = true := ((Bool.and_eq_true _ _).mp hc).1
      have hnotin : k ∉ acc := by
        have h2 := ((Bool.and_eq_true _ _).mp hc).2
        rw [Bool.not_eq_true'] at h2
        intro hmem
        have h3 : List.elem k acc = true := List.elem_iff.mpr hmem
        rw [show List.contains acc k = List.elem k acc from rfl, h3] at h2
        cases h2
      have hacc2 : (acc ++ [k]).Nodup := by
        rw [List.nodup_append]
        refine ⟨hacc, List.nodup_singleton k, ?_⟩
        intro a ha hak
        rw [List.mem_singleton] at hak
        subst hak
        exact hnotin ha
      obtain ⟨t, h1, h2, h3, h4⟩ := ih (acc ++ [k]) hacc2
      refine ⟨k :: t, ?_, List.Sublist.cons₂ k h2, ?_, ?_⟩
      · rw [h1, List.append_assoc]
        rfl
      · rw [show acc ++ k :: t = (acc ++ [k]) ++ t by simp]
        exact h3
      · intro y
        constructor
        · intro hy
          rcases List.mem_cons.mp hy with rfl | hmem
          · exact ⟨hnotin, List.mem_cons_self _ _, hsub⟩
          · obtain ⟨hna, hml, hs⟩ := (h4 y).mp hmem
            exact ⟨fun hya => hna (List.mem_append.mpr (Or.inl hya)),
              List.mem_cons_of_mem _ hml, hs⟩
        · rintro ⟨hna, hml, hs⟩
          rcases List.mem_cons.mp hml with rfl | hmem
          · exact List.mem_cons_self _ _
          · by_cases hyk : y = k
            · subst hyk
              exact List.mem_cons_self _ _
            · apply List.mem_cons_of_mem
              apply (h4 y).mpr
              refine ⟨?_, hmem, hs⟩
              intro hya
              rcases List.mem_append.mp hya with h | h
              · exact hna h
              · exact hyk (by simpa using h)
    · rw [if_neg hc]
      obtain ⟨t, h1, h2, h3, h4⟩ := ih acc hacc
      refine ⟨t, h1, List.Sublist.cons k h2, h3, ?_⟩
      intro y
      rw [h4 y]
      constructor
      · rintro ⟨hna, hml, hs⟩
        exact ⟨hna, List.mem_cons_of_mem _ hml, hs⟩
      · rintro ⟨hna, hml, hs⟩
        rcases List.mem_cons.mp hml with rfl | hmem
        · exfalso
          apply hc
          rw [hs, Bool.true_and, Bool.not_eq_true']
          rw [show List.contains acc y = List.elem y acc from rfl]
          cases hel : List.elem y acc
          · rfl
          · exact absurd (List.elem_iff.mp hel) hna
        · exact ⟨hna, hmem, hs⟩

/-- C7 (counterexample): `_extract_industry_keywords("fintech")` returns
`["tech", "fintech", "fintech"]`: the industry vocabulary is scanned in plain
list order (4-character `tech` is reported before 7-character `fintech`, so
not longest-first) and the duplicated vocabulary entry `fintech` appears
twice, contradicting "each term at most once". -/
theorem spec_C7_counterexample :
    extract_industry_keywords "fintech" = ["tech", "fintech", "fintech"] ∧
    (extract_industry_keywords "fintech").count "fintech" = 2 := by
  decide

/-- C7 (amended): the job-role extractor does test entries longest-first
(its output is length-sorted), returns each matched term at most once, and a
term is returned exactly when it is a vocabulary entry contained in the
lower-cased text; the industry extractor instead scans its vocabulary in
plain list order and keeps every matching occurrence, so its duplicated
entries can be returned twice. -/
theorem spec_C7_amended (text : String) :
    (extract_job_keywords text).Nodup ∧
    (extract_job_keywords text).Pairwise (fun a b => b.length ≤ a.length) ∧
    (∀ k, k ∈ extract_job_keywords text ↔
      k ∈ job_keywords ∧ substrOf k (lowerStr text) = true) ∧
    extract_industry_keywords text =
      industry_keywords.filter (fun k => substrOf k (lowerStr text)) := by
  obtain ⟨t, h1, h2, h3, h4⟩ :=
    extractFold_spec (lowerStr text) sortedJobKeywords [] List.nodup_nil
  have hext : extract_job_keywords text = t := by
    show sortedJobKeywords.foldl
      (fun acc k => if substrOf k (lowerStr text) && !(acc.contains k) then acc ++ [k]
        else acc) [] = t
    rw [h1]
    rfl
  refine ⟨?_, ?_, ?_, rfl⟩
  · rw [hext]
    simpa using h3
  · rw [hext]
    exact List.Pairwise.sublist h2 (sortByLenDesc_pairwise job_keywords)
  · intro k
    rw [hext, h4 k]
    constructor
    · rintro ⟨_, hmem, hs⟩
      exact ⟨(mem_sortByLenDesc k job_keywords).mp hmem, hs⟩
    · rintro ⟨hmem, hs⟩
      exact ⟨List.not_mem_nil k, (mem_sortByLenDesc k job_keywords).mpr hmem, hs⟩

unseal Rat.add Rat.mul Rat.sub Rat.inv Nat.gcd in
/-- C8 (counterexample): for search text `abcd` and target `ab` the source
counts the partial match — only the *search* word must have length ≥ 4, and
`ab` is a substring of `abcd` — giving score 0.3; under the claim's condition
(both words of length ≥ 4) the partial component, and hence the whole score,
would be 0. -/
theorem spec_C8_counterexample :
    enhanced_text_matching "abcd" "ab" = 3/10 ∧
    enhanced_text_matching_claim "abcd" "ab" = 0 ∧
    (3/10 : ℚ) ≠ 0 := by
  decide

/-- C8 (amended): the partial/substring component of `enhanced_text_matching`
counts a search word exactly when it has length at least 4 and some target
word — of *any* length — is a substring of it or contains it; the count is
divided by the number of search words and weighted 0.3; the function returns
0 when either word set is empty. -/
theorem spec_C8_amended (s t : String) :
    enhanced_text_matching s t =
      (if (wordSet s).isEmpty || (wordSet t).isEmpty then 0
       else
        min
          ((((wordSet s).filter (fun w => (wordSet t).contains w)).length : ℚ) /
              ((wordSet s).length : ℚ) * (1/2) +
            (((wordSet s).filter (fun w =>
                decide (4 ≤ w.length ∧ ∃ u ∈ wordSet t,
                  (substrOf w u = true ∨ substrOf u w = true)))).length : ℚ) /
              ((wordSet s).length : ℚ) * (3/10) +
            calculate_semantic_similarity s t * (1/5)) 1) := by
  have hfil : (wordSet s).filter (fun w =>
      decide (4 ≤ w.length) && (wordSet t).any (fun u => substrOf w u || substrOf u w)) =
    (wordSet s).filter (fun w => decide (4 ≤ w.length ∧ ∃ u ∈ wordSet t,
      (substrOf w u = true ∨ substrOf u w = true))) := by
    apply List.filter_congr
    intro w _
    rw [Bool.eq_iff_iff]
    simp [List.any_eq_true]
  simp only [enhanced_text_matching]
  rw [hfil]

unseal Rat.add Rat.mul Rat.sub Rat.inv Nat.gcd in
/-- C9 (counterexample): the source's seniority markers include `junior`.  For
the titles `junior clerk` and `clerk` the source sees seniority disagreement
(no +0.1 bonus, total 0.7), while under the claim's five markers both titles
would count as unmarked and agree (+0.1 bonus, total 0.8). -/
theorem spec_C9_counterexample :
    calculate_enhanced_job_match "junior clerk" "clerk" = 7/10 ∧
    calculate_enhanced_job_match_claim "junior clerk" "clerk" = 4/5 ∧
    (7/10 : ℚ) ≠ 4/5 := by
  decide

/-- C9 (amended): the +0.1 bonus is added exactly when the two titles agree on
presence/absence of a seniority marker, where the markers are `junior`,
`senior`, `lead`, `principal`, `chief`, `head` (six markers — `junior`
included), tested by substring containment in the lower-cased title. -/
theorem spec_C9_amended (jobTitle ssoTitle : String)
    (h : wordUnionCount jobTitle ssoTitle ≠ 0) :
    (∀ x : String, hasSeniorityMarker x = true ↔
      ∃ m ∈ ["junior", "senior", "lead", "principal", "chief", "head"],
        substrOf m (lowerStr x) = true) ∧
    (hasSeniorityMarker jobTitle = hasSeniorityMarker ssoTitle →
      calculate_enhanced_job_match jobTitle ssoTitle =
        min (((wordOverlapCount jobTitle ssoTitle : ℚ) /
            (wordUnionCount jobTitle ssoTitle : ℚ)) +
          jobSynonymBoost jobTitle ssoTitle + 1/10) 1) ∧
    (hasSeniorityMarker jobTitle ≠ hasSeniorityMarker ssoTitle →
      calculate_enhanced_job_match jobTitle ssoTitle =
        min (((wordOverlapCount jobTitle ssoTitle : ℚ) /
            (wordUnionCount jobTitle ssoTitle : ℚ)) +
          jobSynonymBoost jobTitle ssoTitle) 1) := by
  refine ⟨?_, ?_, ?_⟩
  · intro x
    simp [hasSeniorityMarker, seniority_levels, List.any_eq_true]
  · intro hsen
    unfold calculate_enhanced_job_match
    rw [if_neg h, if_pos hsen]
  · intro hsen
    unfold calculate_enhanced_job_match
    rw [if_neg h, if_neg hsen, add_zero]

/-- C9 (witness): equal titles agree on (absent) seniority markers, so the
bonus branch applies. -/
theorem spec_C9_witness :
    calculate_enhanced_job_match "engineer" "engineer" =
      min (((wordOverlapCount "engineer" "engineer" : ℚ) /
          (wordUnionCount "engineer" "engineer" : ℚ)) +
        jobSynonymBoost "engineer" "engineer" + 1/10) 1 :=
  (spec_C9_amended "engineer" "engineer" (by decide)).2.1 (by decide)

/-- C10: whenever the LLM's answer cleans (digits, first five) to a 5-digit
code present in the corresponding taxonomy table, both AI sub-flows return
that code with confidence exactly 0.90, regardless of how the lexical scorer
ranked it — the tables, query and shortlist influence nothing but the prompt. -/
theorem spec_C10 (ssicTbl ssocTbl : List TaxRow)
    (company jobTitle jobDescription companyDescription ssoCode : String)
    (o : AIOracle) (respS respI : String) (rowS rowI : TaxRow) :
    (o.ssoResp = Except.ok respS → (digitsTake5 respS).length = 5 →
      ssocTbl.find? (fun r => r.code == digitsTake5 respS) = some rowS →
      ai_enhanced_sso_classification ssocTbl company jobTitle jobDescription o =
        ⟨digitsTake5 respS, rowS.title, 9/10⟩) ∧
    (o.ssicResp = Except.ok respI → (digitsTake5 respI).length = 5 →
      ssicTbl.find? (fun r => r.code == digitsTake5 respI) = some rowI →
      ai_enhanced_ssic_classification ssicTbl company companyDescription ssoCode o =
        ⟨digitsTake5 respI, rowI.title, 9/10⟩) := by
  constructor
  · intro ho _ hfind
    simp only [ai_enhanced_sso_classification, ho, hfind]
  · intro ho hlen hfind
    simp only [ai_enhanced_ssic_classification, ho]
    rw [if_pos hlen]
    simp only [hfind]

/-- C10 (witness): an oracle answering ` 25121 ` for the occupation and
`62011` for the industry, with one-row tables holding those codes. -/
theorem spec_C10_witness :
    ai_enhanced_sso_classification [⟨"25121", "Software developer"⟩] "c" "t" "d"
      ⟨Except.error "boom", Except.ok " 25121 ", Except.ok "62011"⟩ =
      ⟨"25121", "Software developer", 9/10⟩ ∧
    ai_enhanced_ssic_classification [⟨"62011", "Software development"⟩] "c" "cd" "25121"
      ⟨Except.error "boom", Except.ok " 25121 ", Except.ok "62011"⟩ =
      ⟨"62011", "Software development", 9/10⟩ :=
  ⟨(spec_C10 [⟨"62011", "Software development"⟩] [⟨"25121", "Software developer"⟩]
      "c" "t" "d" "cd" "25121"
      ⟨Except.error "boom", Except.ok " 25121 ", Except.ok "62011"⟩
      " 25121 " "62011" ⟨"25121", "Software developer"⟩
      ⟨"62011", "Software development"⟩).1 rfl (by decide) (by decide),
   (spec_C10 [⟨"62011", "Software development"⟩] [⟨"25121", "Software developer"⟩]
      "c" "t" "d" "cd" "25121"
      ⟨Except.error "boom", Except.ok " 25121 ", Except.ok "62011"⟩
      " 25121 " "62011" ⟨"25121", "Software developer"⟩
      ⟨"62011", "Software development"⟩).2 rfl (by decide) (by decide)⟩
